import Mathlib

/-!
# Zuper Jobs Validation Dashboard — verification of the sync-and-validate pipeline

Shallow embedding of the core of the repository:
* `src/sync_jobs_to_db.py` — serial normalization, entity extraction,
  validation rules, and the database sync loop (`sync_jobs_to_database`);
* `src/streamlit_sync.py` — paginated API fetch (`fetch_jobs_from_api`) and
  concurrent detail enrichment (`enrich_jobs_with_assets`);
* `src/notifications/slack_notifier.py` — notification dedup and dispatch.

Python strings are modelled as Lean `String`s; `str.upper`/`str.lower` are
modelled character-wise by `Char.toUpper`/`Char.toLower` (faithful on the
ASCII range the pipeline manipulates).  SQLite tables are modelled as lists
of typed rows; `INSERT OR REPLACE` under a primary key deletes the
conflicting row and appends the new one, `INSERT OR IGNORE` appends only
when no row with the key exists.  `datetime.now()` is an explicit `now`
parameter.
-/

namespace Zuper

/-! ## Python string primitives -/

/-- `s.upper()` (character-wise, ASCII). -/
def pyUpper (s : String) : String := ⟨s.data.map Char.toUpper⟩

/-- `s.lower()` (character-wise, ASCII). -/
def pyLower (s : String) : String := ⟨s.data.map Char.toLower⟩

/-- Python `needle in hay` (substring containment). -/
def pyIn (needle hay : String) : Prop := needle.data <:+: hay.data

instance (needle hay : String) : Decidable (pyIn needle hay) :=
  inferInstanceAs (Decidable (needle.data <:+: hay.data))

/-- `str.strip()` — trim leading and trailing whitespace. -/
def pyStrip (s : String) : String := s.trim

/-- Truthiness of an optional string (`None` and `''` are falsy). -/
def optTruthy : Option String → Bool
  | none => false
  | some s => !(s == "")

/-- `', '.join(l)` (also used where the code guards with `if l else ''`,
since joining the empty list already yields `''`). -/
def joinComma (l : List String) : String := String.intercalate ", " l

/-- Python `s[:n]` on a string. -/
def pyTake (n : Nat) (s : String) : String := ⟨s.data.take n⟩

/-! ## Configuration constants (`src/sync_jobs_to_db.py`, lines 29–41) -/

def ALLOWED_JOB_CATEGORIES : List String :=
  ["LaserWeeder Service Call", "WM Service - In Field", "WM Repair - In Shop"]

def SKIP_VALIDATION_CATEGORIES : List String :=
  ["field requires parts", "reaper pm", "slayer pm"]

def CONSUMABLE_TERMS : List String :=
  ["consumable", "consumables", "supplies", "service"]

/-! ## Extracted entities -/

/-- One extracted line item (`extract_line_items` output shape). -/
structure LineItem where
  item_name : String
  item_code : String
  item_serial : String
  quantity : Nat
  price : String
  line_item_type : String
  deriving Repr, DecidableEq

/-- One extracted checklist part (`extract_checklist_parts` output shape). -/
structure ChecklistPart where
  checklist_question : String
  part_serial : String
  part_description : String
  status_name : String
  position : String
  updated_at : String
  deriving Repr, DecidableEq

/-- The JSON `details` blob attached to a validation flag. -/
inductive FlagDetails where
  | missingNetsuite (line_items_count : Nat) (line_items : List String)
      (consumables_excluded : Nat)
  | partsReplaced (parts_count : Nat) (parts_replaced : List String)
  deriving Repr, DecidableEq

/-- A validation flag as produced by `validate_job`. -/
structure Flag where
  flag_type : String
  flag_severity : String
  flag_message : String
  details : FlagDetails
  deriving Repr, DecidableEq

/-! ## ValidationEngine (`validate_job`, `src/sync_jobs_to_db.py` lines 699–757) -/

/-- The consumable test of rule 1: any configured term occurs in the
lower-cased name, code, serial or type of the item. -/
def is_consumable (item : LineItem) : Bool :=
  CONSUMABLE_TERMS.any fun term =>
    decide (pyIn term (pyLower item.item_name)) ||
    decide (pyIn term (pyLower item.item_code)) ||
    decide (pyIn term (pyLower item.item_serial)) ||
    decide (pyIn term (pyLower item.line_item_type))

/-- The skip-category test: some configured skip term occurs in the
lower-cased job category. -/
def skip_validation_match (job_category : String) : Bool :=
  SKIP_VALIDATION_CATEGORIES.any fun category =>
    decide (pyIn category (pyLower job_category))

def missing_netsuite_message (n : Nat) : String :=
  s!"Job has {n} non-consumable line item(s) but missing NetSuite Sales Order ID"

def parts_replaced_message (n : Nat) : String :=
  s!"Checklist shows {n} part(s) replaced but no line items added"

/-- The two business rules of `validate_job` (its body past the skip check). -/
def rule_flags (line_items : List LineItem) (checklist_parts : List ChecklistPart)
    (netsuite_id : Option String) : List Flag :=
  let flags1 : List Flag :=
    if line_items ≠ [] ∧ optTruthy netsuite_id = false then
      let non_consumable_items := line_items.filter fun item => !(is_consumable item)
      if non_consumable_items ≠ [] then
        [⟨"missing_netsuite_id", "error",
          missing_netsuite_message non_consumable_items.length,
          .missingNetsuite non_consumable_items.length
            (non_consumable_items.map (·.item_name))
            (line_items.length - non_consumable_items.length)⟩]
      else []
    else []
  let flags2 : List Flag :=
    if checklist_parts ≠ [] ∧ line_items = [] then
      [⟨"parts_replaced_no_line_items", "error",
        parts_replaced_message checklist_parts.length,
        .partsReplaced checklist_parts.length
          (checklist_parts.map (·.part_serial))⟩]
    else []
  flags1 ++ flags2

/-- `validate_job(job_uid, line_items, checklist_parts, netsuite_id, job_category)`.
The `job_uid` argument is carried but (as in the source) unused by the rules. -/
def validate_job (job_uid : String) (line_items : List LineItem)
    (checklist_parts : List ChecklistPart) (netsuite_id : Option String)
    (job_category : String) : List Flag :=
  if skip_validation_match job_category then []
  else rule_flags line_items checklist_parts netsuite_id

example :
    (validate_job "u" [⟨"Widget", "", "", 1, "0", ""⟩] [] none "").map (·.flag_type) =
      ["missing_netsuite_id"] := by decide

example :
    validate_job "u" [⟨"shop supplies", "", "", 1, "0", ""⟩] [] none "" = [] := by decide

example :
    (validate_job "u" [] [⟨"q", "CR-SM-000571", "d", "s", "q", "t"⟩] none
      "LaserWeeder Service Call").map (·.flag_type) =
      ["parts_replaced_no_line_items"] := by decide

example :
    validate_job "u" [] [⟨"q", "CR-SM-000571", "d", "s", "q", "t"⟩] none "Reaper PM" = [] := by
  decide

/-! ## SerialNormalizer (`normalize_serial`, `src/sync_jobs_to_db.py` lines 94–136) -/

/-- `serial.upper().replace('-', '')` on the character list. -/
def stripDashUpper (l : List Char) : List Char :=
  (l.map Char.toUpper).filter fun c => c != '-'

/-- Body of `normalize_serial`: `orig` is the original character list (used
by the unrecognized-input fallback, which returns it upper-cased with its
dashes kept), `s` the dash-stripped upper-cased form dispatched on.  The
Python local `digits` (`s[4:]` etc.) is inlined at each use. -/
def normChars (orig s : List Char) : List Char :=
  if "CRSM".data <+: s then
    if (s.drop 4).drop ((s.drop 4).length - 2) = "RW".data then
      "CR-SM-".data ++ (s.drop 4).take ((s.drop 4).length - 2) ++ "-RW".data
    else
      "CR-SM-".data ++ s.drop 4
  else if "CRY150".data <+: s then
    if (s.drop 6).drop ((s.drop 6).length - 1) = "R".data then
      "CR-Y150-".data ++ (s.drop 6).take ((s.drop 6).length - 1) ++ "-R".data
    else
      "CR-Y150-".data ++ s.drop 6
  else if "CRMPC".data <+: s then
    "CR-MPC-".data ++ s.drop 5
  else if "SM".data <+: s ∧ ¬ ("CRSM".data <+: s) then
    if 9 ≤ (s.drop 2).length then
      "SM-".data ++ (s.drop 2).take 6 ++ "-".data ++ (s.drop 2).drop 6
    else
      "SM-".data ++ s.drop 2
  else if "WM".data <+: s then
    if 9 ≤ (s.drop 2).length then
      "WM-".data ++ (s.drop 2).take 6 ++ "-".data ++ (s.drop 2).drop 6
    else
      "WM-".data ++ s.drop 2
  else
    orig.map Char.toUpper

/-- `normalize_serial(serial)`: canonicalize a serial number, re-inserting
dashes according to the grammar selected by the (dash-stripped, upper-cased)
prefix; unrecognized input is returned upper-cased, otherwise unchanged. -/
def normalize_serial (serial : String) : String :=
  ⟨normChars serial.data (stripDashUpper serial.data)⟩

example : normalize_serial "WM250613004" = "WM-250613-004" := by decide
example : normalize_serial "CRSM000571RW" = "CR-SM-000571-RW" := by decide
example : normalize_serial "sm250721002" = "SM-250721-002" := by decide
example : normalize_serial "CR-Y150-005032-R" = "CR-Y150-005032-R" := by decide
example : normalize_serial "crmpc00278" = "CR-MPC-00278" := by decide
example : normalize_serial "hello-world" = "HELLO-WORLD" := by decide

/-! ### Idempotence of `normalize_serial` -/

theorem char_toNat_ofNat_valid (n : Nat) (h : n.isValidChar) :
    (Char.ofNat n).toNat = n := by
  rw [Char.ofNat, dif_pos h]
  rfl

/-- `Char.toUpper` (the model of Python `str.upper` at one character) is
idempotent. -/
theorem char_toUpper_toUpper (c : Char) : c.toUpper.toUpper = c.toUpper := by
  unfold Char.toUpper
  by_cases h : c.toNat ≥ 97 ∧ c.toNat ≤ 122
  · rw [if_pos h]
    have hv : (c.toNat - 32).isValidChar := Or.inl (by omega)
    have ht : (Char.ofNat (c.toNat - 32)).toNat = c.toNat - 32 :=
      char_toNat_ofNat_valid _ hv
    rw [if_neg]
    omega
  · rw [if_neg h, if_neg h]

theorem stripDashUpper_append (a b : List Char) :
    stripDashUpper (a ++ b) = stripDashUpper a ++ stripDashUpper b := by
  simp [stripDashUpper]

theorem mem_stripDashUpper {c : Char} {l : List Char} (h : c ∈ stripDashUpper l) :
    c.toUpper = c ∧ c ≠ '-' := by
  unfold stripDashUpper at h
  rw [List.mem_filter] at h
  obtain ⟨hm, hne⟩ := h
  rw [List.mem_map] at hm
  obtain ⟨a, _, rfl⟩ := hm
  exact ⟨char_toUpper_toUpper a, by simpa using hne⟩

theorem stripDashUpper_of_fixed {l : List Char}
    (h : ∀ c ∈ l, c.toUpper = c ∧ c ≠ '-') : stripDashUpper l = l := by
  induction l with
  | nil => rfl
  | cons a l ih =>
    obtain ⟨ha, hd⟩ := h a (List.mem_cons_self a l)
    have hstep : stripDashUpper (a :: l) = a :: stripDashUpper l := by
      simp [stripDashUpper, ha, hd]
    rw [hstep, ih fun c hc => h c (List.mem_cons_of_mem a hc)]

theorem drop_app_sub (a b : List Char) :
    (a ++ b).drop ((a ++ b).length - b.length) = b := by
  rw [List.length_append, Nat.add_sub_cancel, List.drop_left]

theorem take_app_sub (a b : List Char) :
    (a ++ b).take ((a ++ b).length - b.length) = a := by
  rw [List.length_append, Nat.add_sub_cancel, List.take_left]

theorem map_toUpper_idem (l : List Char) :
    (l.map Char.toUpper).map Char.toUpper = l.map Char.toUpper := by
  rw [List.map_map]
  exact List.map_congr_left fun c _ => char_toUpper_toUpper c

theorem stripDashUpper_map_toUpper (l : List Char) :
    stripDashUpper (l.map Char.toUpper) = stripDashUpper l := by
  unfold stripDashUpper
  rw [map_toUpper_idem]

theorem not_crsm_cry (x : List Char) : ¬ ("CRSM".data <+: "CRY150".data ++ x) := by
  intro h
  simp [List.cons_prefix_cons, show "CRSM".data = ['C','R','S','M'] from rfl,
    show "CRY150".data = ['C','R','Y','1','5','0'] from rfl] at h

theorem not_crsm_crmpc (x : List Char) : ¬ ("CRSM".data <+: "CRMPC".data ++ x) := by
  intro h
  simp [List.cons_prefix_cons, show "CRSM".data = ['C','R','S','M'] from rfl,
    show "CRMPC".data = ['C','R','M','P','C'] from rfl] at h

theorem not_cry_crmpc (x : List Char) : ¬ ("CRY150".data <+: "CRMPC".data ++ x) := by
  intro h
  simp [List.cons_prefix_cons, show "CRY150".data = ['C','R','Y','1','5','0'] from rfl,
    show "CRMPC".data = ['C','R','M','P','C'] from rfl] at h

theorem not_crsm_sm (x : List Char) : ¬ ("CRSM".data <+: "SM".data ++ x) := by
  intro h
  simp [List.cons_prefix_cons, show "CRSM".data = ['C','R','S','M'] from rfl,
    show "SM".data = ['S','M'] from rfl] at h

theorem not_cry_sm (x : List Char) : ¬ ("CRY150".data <+: "SM".data ++ x) := by
  intro h
  simp [List.cons_prefix_cons, show "CRY150".data = ['C','R','Y','1','5','0'] from rfl,
    show "SM".data = ['S','M'] from rfl] at h

theorem not_crmpc_sm (x : List Char) : ¬ ("CRMPC".data <+: "SM".data ++ x) := by
  intro h
  simp [List.cons_prefix_cons, show "CRMPC".data = ['C','R','M','P','C'] from rfl,
    show "SM".data = ['S','M'] from rfl] at h

theorem not_crsm_wm (x : List Char) : ¬ ("CRSM".data <+: "WM".data ++ x) := by
  intro h
  simp [List.cons_prefix_cons, show "CRSM".data = ['C','R','S','M'] from rfl,
    show "WM".data = ['W','M'] from rfl] at h

theorem not_cry_wm (x : List Char) : ¬ ("CRY150".data <+: "WM".data ++ x) := by
  intro h
  simp [List.cons_prefix_cons, show "CRY150".data = ['C','R','Y','1','5','0'] from rfl,
    show "WM".data = ['W','M'] from rfl] at h

theorem not_crmpc_wm (x : List Char) : ¬ ("CRMPC".data <+: "WM".data ++ x) := by
  intro h
  simp [List.cons_prefix_cons, show "CRMPC".data = ['C','R','M','P','C'] from rfl,
    show "WM".data = ['W','M'] from rfl] at h

theorem not_sm_wm (x : List Char) : ¬ ("SM".data <+: "WM".data ++ x) := by
  intro h
  simp [List.cons_prefix_cons, show "SM".data = ['S','M'] from rfl,
    show "WM".data = ['W','M'] from rfl] at h

theorem normChars_idem (o : List Char) :
    normChars (normChars o (stripDashUpper o))
      (stripDashUpper (normChars o (stripDashUpper o))) =
      normChars o (stripDashUpper o) := by
  by_cases h1 : "CRSM".data <+: stripDashUpper o
  · -- Scanner Module grammar
    obtain ⟨t, ht⟩ := h1
    have hd : (stripDashUpper o).drop 4 = t := by
      rw [← ht, List.drop_left' (by decide : ("CRSM".data).length = 4)]
    have hfix : ∀ c ∈ t, c.toUpper = c ∧ c ≠ '-' := fun c hc =>
      mem_stripDashUpper (l := o) (by rw [← ht]; exact List.mem_append_right _ hc)
    by_cases hrw : t.drop (t.length - 2) = "RW".data
    · have hr : normChars o (stripDashUpper o) =
          "CR-SM-".data ++ t.take (t.length - 2) ++ "-RW".data := by
        unfold normChars
        rw [if_pos ⟨t, ht⟩, hd, if_pos hrw]
      have hs2 : stripDashUpper ("CR-SM-".data ++ t.take (t.length - 2) ++ "-RW".data) =
          "CRSM".data ++ (t.take (t.length - 2) ++ "RW".data) := by
        rw [stripDashUpper_append, stripDashUpper_append,
          stripDashUpper_of_fixed fun c hc => hfix c (List.mem_of_mem_take hc),
          show stripDashUpper "CR-SM-".data = "CRSM".data by decide,
          show stripDashUpper "-RW".data = "RW".data by decide, List.append_assoc]
      rw [hr, hs2]
      unfold normChars
      rw [if_pos (List.prefix_append _ _),
        List.drop_left' (by decide : ("CRSM".data).length = 4)]
      have h2 : ("RW".data).length = 2 := by decide
      rw [← h2, if_pos (drop_app_sub _ _), take_app_sub]
    · have hr : normChars o (stripDashUpper o) = "CR-SM-".data ++ t := by
        unfold normChars
        rw [if_pos ⟨t, ht⟩, hd, if_neg hrw]
      have hs2 : stripDashUpper ("CR-SM-".data ++ t) = "CRSM".data ++ t := by
        rw [stripDashUpper_append, stripDashUpper_of_fixed hfix,
          show stripDashUpper "CR-SM-".data = "CRSM".data by decide]
      rw [hr, hs2]
      unfold normChars
      rw [if_pos (List.prefix_append _ _),
        List.drop_left' (by decide : ("CRSM".data).length = 4), if_neg hrw]
  · by_cases h2 : "CRY150".data <+: stripDashUpper o
    · -- Y150 grammar
      obtain ⟨t, ht⟩ := h2
      have hd : (stripDashUpper o).drop 6 = t := by
        rw [← ht, List.drop_left' (by decide : ("CRY150".data).length = 6)]
      have hfix : ∀ c ∈ t, c.toUpper = c ∧ c ≠ '-' := fun c hc =>
        mem_stripDashUpper (l := o) (by rw [← ht]; exact List.mem_append_right _ hc)
      by_cases hsR : t.drop (t.length - 1) = "R".data
      · have hr : normChars o (stripDashUpper o) =
            "CR-Y150-".data ++ t.take (t.length - 1) ++ "-R".data := by
          unfold normChars
          rw [if_neg h1, if_pos ⟨t, ht⟩, hd, if_pos hsR]
        have hs2 : stripDashUpper ("CR-Y150-".data ++ t.take (t.length - 1) ++ "-R".data) =
            "CRY150".data ++ (t.take (t.length - 1) ++ "R".data) := by
          rw [stripDashUpper_append, stripDashUpper_append,
            stripDashUpper_of_fixed fun c hc => hfix c (List.mem_of_mem_take hc),
            show stripDashUpper "CR-Y150-".data = "CRY150".data by decide,
            show stripDashUpper "-R".data = "R".data by decide, List.append_assoc]
        rw [hr, hs2]
        unfold normChars
        rw [if_neg (not_crsm_cry _), if_pos (List.prefix_append _ _),
          List.drop_left' (by decide : ("CRY150".data).length = 6)]
        have hone : ("R".data).length = 1 := by decide
        rw [← hone, if_pos (drop_app_sub _ _), take_app_sub]
      · have hr : normChars o (stripDashUpper o) = "CR-Y150-".data ++ t := by
          unfold normChars
          rw [if_neg h1, if_pos ⟨t, ht⟩, hd, if_neg hsR]
        have hs2 : stripDashUpper ("CR-Y150-".data ++ t) = "CRY150".data ++ t := by
          rw [stripDashUpper_append, stripDashUpper_of_fixed hfix,
            show stripDashUpper "CR-Y150-".data = "CRY150".data by decide]
        rw [hr, hs2]
        unfold normChars
        rw [if_neg (not_crsm_cry _), if_pos (List.prefix_append _ _),
          List.drop_left' (by decide : ("CRY150".data).length = 6), if_neg hsR]
    · by_cases h3 : "CRMPC".data <+: stripDashUpper o
      · -- MPC grammar
        obtain ⟨t, ht⟩ := h3
        have hd : (stripDashUpper o).drop 5 = t := by
          rw [← ht, List.drop_left' (by decide : ("CRMPC".data).length = 5)]
        have hfix : ∀ c ∈ t, c.toUpper = c ∧ c ≠ '-' := fun c hc =>
          mem_stripDashUpper (l := o) (by rw [← ht]; exact List.mem_append_right _ hc)
        have hr : normChars o (stripDashUpper o) = "CR-MPC-".data ++ t := by
          unfold normChars
          rw [if_neg h1, if_neg h2, if_pos ⟨t, ht⟩, hd]
        have hs2 : stripDashUpper ("CR-MPC-".data ++ t) = "CRMPC".data ++ t := by
          rw [stripDashUpper_append, stripDashUpper_of_fixed hfix,
            show stripDashUpper "CR-MPC-".data = "CRMPC".data by decide]
        rw [hr, hs2]
        unfold normChars
        rw [if_neg (not_crsm_crmpc _), if_neg (not_cry_crmpc _),
          if_pos (List.prefix_append _ _),
          List.drop_left' (by decide : ("CRMPC".data).length = 5)]
      · by_cases h4 : "SM".data <+: stripDashUpper o
        · -- SM module grammar
          obtain ⟨t, ht⟩ := h4
          have hd : (stripDashUpper o).drop 2 = t := by
            rw [← ht, List.drop_left' (by decide : ("SM".data).length = 2)]
          have hfix : ∀ c ∈ t, c.toUpper = c ∧ c ≠ '-' := fun c hc =>
            mem_stripDashUpper (l := o) (by rw [← ht]; exact List.mem_append_right _ hc)
          by_cases h9 : 9 ≤ t.length
          · have hr : normChars o (stripDashUpper o) =
                "SM-".data ++ t.take 6 ++ "-".data ++ t.drop 6 := by
              unfold normChars
              rw [if_neg h1, if_neg h2, if_neg h3, if_pos ⟨⟨t, ht⟩, h1⟩, hd, if_pos h9]
            have hs2 : stripDashUpper ("SM-".data ++ t.take 6 ++ "-".data ++ t.drop 6) =
                "SM".data ++ t := by
              rw [stripDashUpper_append, stripDashUpper_append, stripDashUpper_append,
                stripDashUpper_of_fixed fun c hc => hfix c (List.mem_of_mem_take hc),
                stripDashUpper_of_fixed fun c hc => hfix c (List.mem_of_mem_drop hc),
                show stripDashUpper "SM-".data = "SM".data by decide,
                show stripDashUpper "-".data = ([] : List Char) by decide,
                List.append_nil, List.append_assoc, List.take_append_drop]
            rw [hr, hs2]
            unfold normChars
            rw [if_neg (not_crsm_sm _), if_neg (not_cry_sm _), if_neg (not_crmpc_sm _),
              if_pos ⟨List.prefix_append _ _, not_crsm_sm t⟩,
              List.drop_left' (by decide : ("SM".data).length = 2), if_pos h9]
          · have hr : normChars o (stripDashUpper o) = "SM-".data ++ t := by
              unfold normChars
              rw [if_neg h1, if_neg h2, if_neg h3, if_pos ⟨⟨t, ht⟩, h1⟩, hd, if_neg h9]
            have hs2 : stripDashUpper ("SM-".data ++ t) = "SM".data ++ t := by
              rw [stripDashUpper_append, stripDashUpper_of_fixed hfix,
                show stripDashUpper "SM-".data = "SM".data by decide]
            rw [hr, hs2]
            unfold normChars
            rw [if_neg (not_crsm_sm _), if_neg (not_cry_sm _), if_neg (not_crmpc_sm _),
              if_pos ⟨List.prefix_append _ _, not_crsm_sm t⟩,
              List.drop_left' (by decide : ("SM".data).length = 2), if_neg h9]
        · by_cases h5 : "WM".data <+: stripDashUpper o
          · -- WM module grammar
            obtain ⟨t, ht⟩ := h5
            have hd : (stripDashUpper o).drop 2 = t := by
              rw [← ht, List.drop_left' (by decide : ("WM".data).length = 2)]
            have hfix : ∀ c ∈ t, c.toUpper = c ∧ c ≠ '-' := fun c hc =>
              mem_stripDashUpper (l := o) (by rw [← ht]; exact List.mem_append_right _ hc)
            by_cases h9 : 9 ≤ t.length
            · have hr : normChars o (stripDashUpper o) =
                  "WM-".data ++ t.take 6 ++ "-".data ++ t.drop 6 := by
                unfold normChars
                rw [if_neg h1, if_neg h2, if_neg h3, if_neg fun hc => h4 hc.1,
                  if_pos ⟨t, ht⟩, hd, if_pos h9]
              have hs2 : stripDashUpper ("WM-".data ++ t.take 6 ++ "-".data ++ t.drop 6) =
                  "WM".data ++ t := by
                rw [stripDashUpper_append, stripDashUpper_append, stripDashUpper_append,
                  stripDashUpper_of_fixed fun c hc => hfix c (List.mem_of_mem_take hc),
                  stripDashUpper_of_fixed fun c hc => hfix c (List.mem_of_mem_drop hc),
                  show stripDashUpper "WM-".data = "WM".data by decide,
                  show stripDashUpper "-".data = ([] : List Char) by decide,
                  List.append_nil, List.append_assoc, List.take_append_drop]
              rw [hr, hs2]
              unfold normChars
              rw [if_neg (not_crsm_wm _), if_neg (not_cry_wm _), if_neg (not_crmpc_wm _),
                if_neg fun hc => not_sm_wm t hc.1, if_pos (List.prefix_append _ _),
                List.drop_left' (by decide : ("WM".data).length = 2), if_pos h9]
            · have hr : normChars o (stripDashUpper o) = "WM-".data ++ t := by
                unfold normChars
                rw [if_neg h1, if_neg h2, if_neg h3, if_neg fun hc => h4 hc.1,
                  if_pos ⟨t, ht⟩, hd, if_neg h9]
              have hs2 : stripDashUpper ("WM-".data ++ t) = "WM".data ++ t := by
                rw [stripDashUpper_append, stripDashUpper_of_fixed hfix,
                  show stripDashUpper "WM-".data = "WM".data by decide]
              rw [hr, hs2]
              unfold normChars
              rw [if_neg (not_crsm_wm _), if_neg (not_cry_wm _), if_neg (not_crmpc_wm _),
                if_neg fun hc => not_sm_wm t hc.1, if_pos (List.prefix_append _ _),
                List.drop_left' (by decide : ("WM".data).length = 2), if_neg h9]
          · -- unrecognized input: upper-cased, otherwise unchanged
            have hr : normChars o (stripDashUpper o) = o.map Char.toUpper := by
              unfold normChars
              rw [if_neg h1, if_neg h2, if_neg h3, if_neg fun hc => h4 hc.1, if_neg h5]
            rw [hr]
            have hs2 : stripDashUpper (o.map Char.toUpper) = stripDashUpper o :=
              stripDashUpper_map_toUpper o
            unfold normChars
            rw [hs2, if_neg h1, if_neg h2, if_neg h3, if_neg fun hc => h4 hc.1, if_neg h5,
              map_toUpper_idem]

/-- C9: `normalize_serial` is idempotent: for every string `s`,
`normalize_serial (normalize_serial s) = normalize_serial s`, across all five
serial grammars and for unrecognized input (which the fallback branch of
`normChars` returns upper-cased and otherwise unchanged). -/
theorem claim_C9_normalize_serial_idempotent (s : String) :
    normalize_serial (normalize_serial s) = normalize_serial s :=
  congrArg String.mk (normChars_idem s.data)

/-- C2 counterexample: no single `validate_job` call can emit both a
`missing_netsuite_id` flag and a `parts_replaced_no_line_items` flag — rule 1
requires `line_items` non-empty while rule 2 requires it empty — so the
claimed job exhibiting both flags in one returned list does not exist. -/
theorem claim_C2_counterexample :
    ¬ ∃ (uid : String) (li : List LineItem) (cp : List ChecklistPart)
      (ns : Option String) (cat : String),
      "missing_netsuite_id" ∈ (validate_job uid li cp ns cat).map (·.flag_type) ∧
      "parts_replaced_no_line_items" ∈ (validate_job uid li cp ns cat).map (·.flag_type) := by
  rintro ⟨uid, li, cp, ns, cat, hm, hp⟩
  by_cases hskip : skip_validation_match cat
  · simp [validate_job, hskip] at hm
  · by_cases hli : li = []
    · subst hli
      simp [validate_job, rule_flags, hskip] at hm
      obtain ⟨f, ⟨-, rfl⟩, hty⟩ := hm
      simp at hty
    · by_cases hns : optTruthy ns = false
      · by_cases hnc : li.filter (fun item => !(is_consumable item)) = []
        · simp [validate_job, rule_flags, hskip, hli, hns, hnc] at hp
        · simp [validate_job, rule_flags, hskip, hli, hns, hnc] at hp
      · simp [validate_job, rule_flags, hskip, hli, hns] at hp

/-- C2 (amended): the two rules of `validate_job` are mutually exclusive —
rule 1 (`missing_netsuite_id`) requires non-empty `line_items` while rule 2
(`parts_replaced_no_line_items`) requires empty `line_items` — so a single
call emits at most one flag, and in particular never both; in the code rule
1's flag is appended before rule 2's. -/
theorem claim_C2_rules_mutually_exclusive (uid : String) (li : List LineItem)
    (cp : List ChecklistPart) (ns : Option String) (cat : String) :
    (validate_job uid li cp ns cat).length ≤ 1 := by
  by_cases hskip : skip_validation_match cat
  · simp [validate_job, hskip]
  · by_cases hli : li = []
    · subst hli
      by_cases hcp : cp = []
      · simp [validate_job, rule_flags, hskip, hcp]
      · simp [validate_job, rule_flags, hskip, hcp]
    · by_cases hns : optTruthy ns = false
      · by_cases hnc : li.filter (fun item => !(is_consumable item)) = []
        · simp [validate_job, rule_flags, hskip, hli, hns, hnc]
        · simp [validate_job, rule_flags, hskip, hli, hns, hnc]
      · simp [validate_job, rule_flags, hskip, hli, hns]

/-- C4: with non-empty `line_items`, absent `netsuite_id` and a category
matching no skip term, `validate_job` emits exactly one `missing_netsuite_id`
flag iff some line item survives the consumable filter; the flag's details
list the surviving items' names and the count of excluded consumables, and
no flag at all is emitted when every item is consumable. -/
theorem claim_C4_missing_netsuite_rule (uid : String) (li : List LineItem)
    (cp : List ChecklistPart) (ns : Option String) (cat : String)
    (hli : li ≠ []) (hns : optTruthy ns = false)
    (hskip : skip_validation_match cat = false) :
    (li.filter (fun item => !(is_consumable item)) ≠ [] →
      validate_job uid li cp ns cat =
        [⟨"missing_netsuite_id", "error",
          missing_netsuite_message (li.filter (fun item => !(is_consumable item))).length,
          .missingNetsuite (li.filter (fun item => !(is_consumable item))).length
            ((li.filter (fun item => !(is_consumable item))).map (·.item_name))
            (li.length - (li.filter (fun item => !(is_consumable item))).length)⟩]) ∧
    (li.filter (fun item => !(is_consumable item)) = [] →
      validate_job uid li cp ns cat = []) := by
  constructor
  · intro hnc
    simp [validate_job, rule_flags, hskip, hli, hns, hnc]
  · intro hnc
    simp [validate_job, rule_flags, hskip, hli, hns, hnc]

/-- C4 witness: a single line item named `"Widget"` yields exactly the
`missing_netsuite_id` flag, while a single item named `"shop supplies"`
(containing the consumable term `"supplies"`) yields zero flags. -/
theorem claim_C4_missing_netsuite_rule_witness :
    validate_job "u" [⟨"Widget", "", "", 1, "0", ""⟩] [] none "LaserWeeder Service Call" =
      [⟨"missing_netsuite_id", "error", missing_netsuite_message 1,
        .missingNetsuite 1 ["Widget"] 0⟩] ∧
    validate_job "u" [⟨"shop supplies", "", "", 1, "0", ""⟩] [] none
      "LaserWeeder Service Call" = [] := by
  constructor
  · exact ((claim_C4_missing_netsuite_rule "u" [⟨"Widget", "", "", 1, "0", ""⟩] [] none
      "LaserWeeder Service Call" (by decide) (by decide) (by decide)).1
      (by decide)).trans (by decide)
  · exact (claim_C4_missing_netsuite_rule "u" [⟨"shop supplies", "", "", 1, "0", ""⟩] []
      none "LaserWeeder Service Call" (by decide) (by decide) (by decide)).2 (by decide)

/-! ## ApiClient: `fetch_jobs_from_api` (`src/streamlit_sync.py` lines 55–140)

One loop iteration issues exactly one HTTP request, so the interaction with
the server is modelled as a finite trace of responses consumed one per
iteration.  Job payload contents are opaque to the pagination loop (only
`len(page_jobs)` is read), hence the element type is a parameter. -/

/-- The server's answer to one page request, as the `try`/`except` branches
of the loop distinguish them. -/
inductive PageResponse (α : Type) where
  | timeout
  | httpError (status : Nat) (msg : String)
  | networkError (msg : String)
  | invalidJson (msg : String)
  | payload (jsonType : String) (data : List α) (total_pages : Nat)
  deriving Repr, DecidableEq

/-- Outcome of `fetch_jobs_from_api`: a returned list, a raised exception
(its message), or a trace too short to finish the loop. -/
inductive FetchResult (α : Type) where
  | ok (jobs : List α)
  | err (msg : String)
  | noResponse
  deriving Repr, DecidableEq

/-- The `while True` pagination loop: state is `(page, retry_count, jobs)`;
`page_size = 100`, `max_retries = 3`.  A `timeout` under the retry budget
re-requests the same page; HTTP, network and JSON errors raise; a
`'success'` payload accumulates and pages on; a non-`'success'` payload
breaks out of the loop, returning the jobs accumulated so far. -/
def fetchPages {α : Type} : List (PageResponse α) → Nat → Nat → List α → FetchResult α
  | [], _, _, _ => .noResponse
  | r :: rest, page, retry_count, jobs =>
    match r with
    | .timeout =>
      if retry_count + 1 < 3 then
        fetchPages rest page (retry_count + 1) jobs
      else
        .err s!"Failed to fetch page {page} after 3 retries (timeout)"
    | .httpError status msg => .err s!"HTTP error on page {page}: {status} - {msg}"
    | .networkError msg => .err s!"Network error on page {page}: {msg}"
    | .invalidJson msg => .err s!"Invalid JSON response on page {page}: {msg}"
    | .payload jsonType data total_pages =>
      if jsonType = "success" then
        if data.isEmpty then .ok jobs
        else if page ≥ total_pages ∨ data.length < 100 then .ok (jobs ++ data)
        else fetchPages rest (page + 1) 0 (jobs ++ data)
      else .ok jobs

/-- `fetch_jobs_from_api`: run the loop from page 1 with no retries used and
no jobs accumulated. -/
def fetch_jobs_from_api {α : Type} (responses : List (PageResponse α)) : FetchResult α :=
  fetchPages responses 1 0 []

example :
    fetch_jobs_from_api [PageResponse.payload "success" [7] 1] = .ok [7] := by decide

example :
    fetch_jobs_from_api ([PageResponse.timeout, PageResponse.payload "success" [7] 1]) =
      .ok [7] := by decide

/-- C3 counterexample: after a full first page (100 jobs, 2 total pages), a
second-page response whose `type` field is `"error"` makes
`fetch_jobs_from_api` return the accumulated first page instead of raising a
terminal error. -/
theorem claim_C3_counterexample :
    fetch_jobs_from_api [PageResponse.payload "success" (List.range 100) 2,
      PageResponse.payload "error" ([] : List Nat) 2] = .ok (List.range 100) := by
  rfl

/-- C3 (amended): `fetch_jobs_from_api` retries a page timeout up to 3
attempts, raising after a third consecutive timeout, and raises a terminal
error on HTTP errors, network errors and malformed JSON; but a response
whose `type` field is not `'success'` terminates pagination and returns the
jobs accumulated so far rather than raising. -/
theorem claim_C3_fetch_error_handling {α : Type} (rest : List (PageResponse α))
    (page retry_count status tp : Nat) (msg jsonType : String)
    (jobs data : List α) (ht : jsonType ≠ "success") :
    fetchPages (PageResponse.httpError status msg :: rest) page retry_count jobs =
      .err s!"HTTP error on page {page}: {status} - {msg}" ∧
    fetchPages (PageResponse.networkError msg :: rest) page retry_count jobs =
      .err s!"Network error on page {page}: {msg}" ∧
    fetchPages (PageResponse.invalidJson msg :: rest) page retry_count jobs =
      .err s!"Invalid JSON response on page {page}: {msg}" ∧
    fetchPages (PageResponse.timeout :: PageResponse.timeout :: PageResponse.timeout :: rest)
      page 0 jobs = .err s!"Failed to fetch page {page} after 3 retries (timeout)" ∧
    fetchPages (PageResponse.payload jsonType data tp :: rest) page retry_count jobs =
      .ok jobs := by
  refine ⟨rfl, rfl, rfl, rfl, ?_⟩
  simp [fetchPages, ht]

/-- C3 witness: the amended behavior at a concrete trace, with a concrete
non-`'success'` type field. -/
theorem claim_C3_fetch_error_handling_witness :
    fetchPages (PageResponse.httpError 500 "boom" :: []) 1 0 ([5] : List Nat) =
      .err "HTTP error on page 1: 500 - boom" ∧
    fetchPages (PageResponse.networkError "boom" :: []) 1 0 ([5] : List Nat) =
      .err "Network error on page 1: boom" ∧
    fetchPages (PageResponse.invalidJson "boom" :: []) 1 0 ([5] : List Nat) =
      .err "Invalid JSON response on page 1: boom" ∧
    fetchPages (PageResponse.timeout :: PageResponse.timeout :: PageResponse.timeout :: [])
      1 0 ([5] : List Nat) = .err "Failed to fetch page 1 after 3 retries (timeout)" ∧
    fetchPages (PageResponse.payload "error" [9] 4 :: []) 1 0 [5] = .ok [5] := by
  obtain ⟨h1, h2, h3, h4, h5⟩ :=
    claim_C3_fetch_error_handling ([] : List (PageResponse Nat)) 1 0 500 4 "boom" "error"
      [5] [9] (by decide)
  exact ⟨h1.trans (by decide), h2.trans (by decide), h3.trans (by decide),
    h4.trans (by decide), h5⟩

/-! ## Notifier (`src/notifications/slack_notifier.py`)

The `notification_log` table is a list of rows; its `UNIQUE(job_uid,
notification_type, channel)` constraint makes `INSERT OR REPLACE` delete the
conflicting row and append the new one.  The webhook POST itself (Slack
Block-Kit or Zapier branch — both one POST whose boolean outcome is
externally determined) is modelled by the `sendSucceeds` parameter, and the
`dispatched` field records whether that POST was attempted at all. -/

structure NotificationRow where
  job_uid : String
  notification_type : String
  channel : String
  sent_at : String
  success : Bool
  error_message : Option String
  deriving Repr, DecidableEq

/-- `was_notification_sent`: a row for this job and type with `success = 1`
exists. -/
def was_notification_sent (log : List NotificationRow) (job_uid : String)
    (notification_type : String) : Bool :=
  log.any fun r =>
    r.job_uid == job_uid && r.notification_type == notification_type && r.success

/-- `record_notification`: `INSERT OR REPLACE` with channel `'slack'`. -/
def record_notification (log : List NotificationRow) (job_uid notification_type : String)
    (success : Bool) (error_message : Option String) (now : String) :
    List NotificationRow :=
  (log.filter fun r =>
    !(r.job_uid == job_uid && r.notification_type == notification_type &&
      r.channel == "slack")) ++
  [⟨job_uid, notification_type, "slack", now, success, error_message⟩]

/-- Outcome of one `send_missing_netsuite_notification` call: its boolean
return value, whether the webhook was actually POSTed, and the
notification-log state afterwards. -/
structure NotifyOutcome where
  result : Bool
  dispatched : Bool
  log : List NotificationRow
  deriving Repr, DecidableEq

/-- `send_missing_netsuite_notification(webhook_url, job_uid, ..., force)`:
skip without a webhook URL; skip when already successfully notified unless
forced; otherwise dispatch and record the attempt with its outcome.
The job_number/title/organization/asset/team/completed_at/line_items
arguments only shape the payload and are omitted. -/
def send_missing_netsuite_notification (webhook_url job_uid : String) (force : Bool)
    (sendSucceeds : Bool) (log : List NotificationRow) (now : String) : NotifyOutcome :=
  if webhook_url = "" then ⟨false, false, log⟩
  else if !force && was_notification_sent log job_uid "missing_netsuite_id" then
    ⟨false, false, log⟩
  else
    ⟨sendSucceeds, true,
      record_notification log job_uid "missing_netsuite_id" sendSucceeds
        (if sendSucceeds then none else some "Failed to send notification") now⟩

theorem was_sent_record_false {log : List NotificationRow} {uid ty now : String}
    {err : Option String} (h : was_notification_sent log uid ty = false) :
    was_notification_sent (record_notification log uid ty false err now) uid ty = false := by
  unfold was_notification_sent at h
  unfold was_notification_sent record_notification
  rw [List.any_append, Bool.or_eq_false_iff]
  refine ⟨?_, by simp⟩
  rw [List.any_eq_false] at h ⊢
  exact fun r hr => h r (List.mem_of_mem_filter hr)

theorem was_sent_record_true {log : List NotificationRow} {uid ty now : String}
    {err : Option String} :
    was_notification_sent (record_notification log uid ty true err now) uid ty = true := by
  unfold was_notification_sent record_notification
  rw [List.any_append]
  simp

/-- C6 counterexample: with a configured webhook and an empty log, a first
call whose send fails dispatches, and the immediately following call with
`force = false` dispatches the webhook *again* (the dedup check only counts
rows recorded with `success = 1`), contradicting "dispatches exactly once —
the second call is skipped because the first attempt was recorded regardless
of its outcome". -/
theorem claim_C6_counterexample :
    (send_missing_netsuite_notification "https://hooks.zapier.com/x" "J1" false false []
      "t1").dispatched = true ∧
    (send_missing_netsuite_notification "https://hooks.zapier.com/x" "J1" false true
      (send_missing_netsuite_notification "https://hooks.zapier.com/x" "J1" false false []
        "t1").log "t2").dispatched = true := by
  decide

/-- C6 (amended): with a webhook configured and no prior successful record,
the first call always dispatches; a second call with `force = false` is
skipped iff the first send succeeded — a failed first send is recorded with
`success = 0` and therefore retried — and with `force = true` the second
call dispatches regardless. -/
theorem claim_C6_notification_dedup (url uid : String) (log : List NotificationRow)
    (o1 o2 : Bool) (now1 now2 : String) (hurl : url ≠ "")
    (hfresh : was_notification_sent log uid "missing_netsuite_id" = false) :
    (send_missing_netsuite_notification url uid false o1 log now1).dispatched = true ∧
    (o1 = true →
      (send_missing_netsuite_notification url uid false o2
        (send_missing_netsuite_notification url uid false o1 log now1).log
        now2).dispatched = false) ∧
    (o1 = false →
      (send_missing_netsuite_notification url uid false o2
        (send_missing_netsuite_notification url uid false o1 log now1).log
        now2).dispatched = true) ∧
    (send_missing_netsuite_notification url uid true o2
      (send_missing_netsuite_notification url uid false o1 log now1).log
      now2).dispatched = true := by
  refine ⟨?_, ?_, ?_, ?_⟩
  · simp [send_missing_netsuite_notification, hurl, hfresh]
  · intro h1
    subst h1
    simp [send_missing_netsuite_notification, hurl, hfresh, was_sent_record_true]
  · intro h1
    subst h1
    simp [send_missing_netsuite_notification, hurl, hfresh, was_sent_record_false hfresh]
  · simp [send_missing_netsuite_notification, hurl, hfresh]

/-- C6 witness: concrete two-call runs — a successful first send suppresses
the second call, and a forced second call dispatches. -/
theorem claim_C6_notification_dedup_witness :
    (send_missing_netsuite_notification "https://hooks.slack.com/x" "J2" false true []
      "t1").dispatched = true ∧
    (send_missing_netsuite_notification "https://hooks.slack.com/x" "J2" false true
      (send_missing_netsuite_notification "https://hooks.slack.com/x" "J2" false true []
        "t1").log "t2").dispatched = false ∧
    (send_missing_netsuite_notification "https://hooks.slack.com/x" "J2" true true
      (send_missing_netsuite_notification "https://hooks.slack.com/x" "J2" false true []
        "t1").log "t2").dispatched = true := by
  obtain ⟨h1, h2, -, h4⟩ :=
    claim_C6_notification_dedup "https://hooks.slack.com/x" "J2" [] true true "t1" "t2"
      (by decide) (by decide)
  exact ⟨h1, h2 rfl, h4⟩

/-! ## The job record (nested JSON from the Zuper API)

A `Job` models one job dict with the fields the sync pipeline reads.
Nested `dict.get` probing is modelled with `Option`s: an absent or empty
(falsy) nested dict is `none`.  Where the code reads a missing string key
with default `''`, the field is a plain `String`. -/

structure CategoryEntry where
  category_name : String
  deriving Repr, DecidableEq

/-- The raw `job_category` field: the API usually sends a list of category
dicts, but `sync_jobs_to_database` (line 569) probes it as a dict; model all
three shapes. -/
inductive JobCategoryField where
  | list (cats : List CategoryEntry)
  | dict (cat : CategoryEntry)
  | absent
  deriving Repr, DecidableEq

structure Product where
  product_name : String
  product_id : String
  serial_nos : List String
  quantity : Nat
  price : String
  product_type : String
  deriving Repr, DecidableEq

structure ChecklistItem where
  question : String
  answer : String
  updated_at : String
  deriving Repr, DecidableEq

structure DoneBy where
  user_uid : Option String
  deriving Repr, DecidableEq

structure Status where
  status_name : String
  status_type : String
  updated_at : String
  checklist : List ChecklistItem
  done_by : Option DoneBy
  deriving Repr, DecidableEq

/-- One `assigned_to` entry: `assignment.get('user', {}).get('user_uid')`
and `assignment.get('team', {}).get('team_name', '')`, flattened. -/
structure Assignment where
  user_uid : Option String
  team_name : String
  deriving Repr, DecidableEq

/-- One `assigned_to_team` entry: `entry.get('team', {}).get('team_name', '')`. -/
structure TeamAssignment where
  team_name : String
  deriving Repr, DecidableEq

structure AssetData where
  asset_code : String
  asset_name : String
  deriving Repr, DecidableEq

structure AssetEntry where
  asset : Option AssetData
  deriving Repr, DecidableEq

structure CustomField where
  label : String
  value : String
  field_type : String
  deriving Repr, DecidableEq

structure OrgInfo where
  organization_uid : Option String
  organization_name : String
  deriving Repr, DecidableEq

structure Customer where
  customer_organization : Option OrgInfo
  deriving Repr, DecidableEq

structure Job where
  job_uid : Option String
  job_category : JobCategoryField
  customer : Option Customer
  customer_name : String
  products : List Product
  job_status : List Status
  custom_fields : List CustomField
  assigned_to : List Assignment
  assigned_to_team : List TeamAssignment
  assets : List AssetEntry
  work_order_number : String
  job_number : String
  job_title : String
  created_at : String
  updated_at : String
  deriving Repr, DecidableEq

/-! ## Serial extraction from free text
(`extract_serial_from_text`, `src/sync_jobs_to_db.py` lines 139–160)

The union regex `SERIAL_PATTERN` over the five grammars of
`SERIAL_PATTERNS`, with `re.IGNORECASE` and `re.findall` (leftmost,
non-overlapping) semantics.  Each grammar is fixed literals with optional
dashes plus fixed-width digit groups, so greedy matching without
backtracking is equivalent (a `-` can never satisfy the class that follows
an optional dash). -/

/-- Match one literal character, case-insensitively. -/
def matchLit (p : Char) : List Char → Option (List Char × List Char)
  | [] => none
  | c :: rest => if c.toUpper = p then some ([c], rest) else none

/-- `-?`: greedily consume one dash when present (never fails). -/
def matchOptDash : List Char → (List Char × List Char)
  | '-' :: rest => (['-'], rest)
  | l => ([], l)

/-- `\d{n}`: exactly `n` digits. -/
def matchDigits : Nat → List Char → Option (List Char × List Char)
  | 0, l => some ([], l)
  | _ + 1, [] => none
  | n + 1, c :: rest =>
    if c.isDigit then (matchDigits n rest).map fun p => (c :: p.1, p.2) else none

/-- Sequence two matchers, concatenating what they consumed. -/
def mseq (m1 m2 : List Char → Option (List Char × List Char)) :
    List Char → Option (List Char × List Char) := fun l =>
  match m1 l with
  | some (a, r) =>
    match m2 r with
    | some (b, r2) => some (a ++ b, r2)
    | none => none
  | none => none

/-- A case-insensitive literal string. -/
def mlits (p : List Char) : List Char → Option (List Char × List Char) :=
  p.foldr (fun c acc => mseq (matchLit c) acc) (fun l => some ([], l))

def moptDash : List Char → Option (List Char × List Char) :=
  fun l => some (matchOptDash l)

/-- `(?:-?RW)?` — try `-RW`, then `RW`, else match nothing. -/
def msuffixRW : List Char → Option (List Char × List Char) := fun l =>
  match mseq moptDash (mlits "RW".data) l with
  | some r => some r
  | none => some ([], l)

/-- `CR-?SM-?\d{6}(?:-?RW)?` (scanner_module). -/
def mScannerModule : List Char → Option (List Char × List Char) :=
  mseq (mlits "CR".data) (mseq moptDash (mseq (mlits "SM".data)
    (mseq moptDash (mseq (matchDigits 6) msuffixRW))))

/-- `CR-?Y150-?\d{6}-?R` (y150_component). -/
def mY150Component : List Char → Option (List Char × List Char) :=
  mseq (mlits "CR".data) (mseq moptDash (mseq (mlits "Y150".data)
    (mseq moptDash (mseq (matchDigits 6) (mseq moptDash (mlits "R".data))))))

/-- `CR-?MPC-?\d{5}` (mpc_component). -/
def mMpcComponent : List Char → Option (List Char × List Char) :=
  mseq (mlits "CR".data) (mseq moptDash (mseq (mlits "MPC".data)
    (mseq moptDash (matchDigits 5))))

/-- `SM-?\d{6}-?\d{3}` (sm_module). -/
def mSmModule : List Char → Option (List Char × List Char) :=
  mseq (mlits "SM".data) (mseq moptDash (mseq (matchDigits 6)
    (mseq moptDash (matchDigits 3))))

/-- `WM-?\d{6}-?\d{3}` (weeding_module). -/
def mWmModule : List Char → Option (List Char × List Char) :=
  mseq (mlits "WM".data) (mseq moptDash (mseq (matchDigits 6)
    (mseq moptDash (matchDigits 3))))

/-- The alternation `SERIAL_PATTERN`, alternatives tried in dict order. -/
def tryPatterns (l : List Char) : Option (List Char × List Char) :=
  match mScannerModule l with
  | some r => some r
  | none =>
    match mY150Component l with
    | some r => some r
    | none =>
      match mMpcComponent l with
      | some r => some r
      | none =>
        match mSmModule l with
        | some r => some r
        | none => mWmModule l

/-- `re.findall` scan: leftmost match, non-overlapping, advance one character
on mismatch.  Fuel bounds the recursion (each step consumes at least one
character, so `length + 1` fuel always suffices). -/
def scanSerialsAux : Nat → List Char → List (List Char)
  | 0, _ => []
  | _ + 1, [] => []
  | fuel + 1, c :: rest =>
    match tryPatterns (c :: rest) with
    | some (m, r) => m :: scanSerialsAux fuel r
    | none => scanSerialsAux fuel rest

/-- `extract_serial_from_text(text)`: strip all whitespace, find every
serial-grammar match, normalize each. -/
def extract_serial_from_text (text : String) : List String :=
  if text = "" then []
  else
    let normalized := text.data.filter fun c => !(c.isWhitespace)
    (scanSerialsAux (normalized.length + 1) normalized).map fun m =>
      normalize_serial ⟨m⟩

example :
    extract_serial_from_text "removed CR-SM-000571 installed CR-SM-000572-RW" =
      ["CR-SM-000571", "CR-SM-000572-RW"] := by decide

example : extract_serial_from_text "WM - 250613-004 ok" = ["WM-250613-004"] := by decide

example : extract_serial_from_text "" = [] := by decide

/-! ## EntityExtractor (`src/sync_jobs_to_db.py` lines 162–339) -/

/-- `get_job_category(job)` (lines 332–339). -/
def get_job_category (job : Job) : String :=
  match job.job_category with
  | .list [] => ""
  | .list (c :: _) => c.category_name
  | .dict c => c.category_name
  | .absent => ""

/-- The category recomputed for validation inside `sync_jobs_to_database`
(lines 569–570): `job.get('job_category', {})` probed as a dict — a list
(or anything that is not a dict) yields `''`. -/
def category_for_validation (job : Job) : String :=
  match job.job_category with
  | .dict c => c.category_name
  | _ => ""

/-- `extract_asset_from_job(job)` (lines 162–179). -/
def extract_asset_from_job (job : Job) : String :=
  match job.assets with
  | [] => ""
  | a :: _ =>
    match a.asset with
    | some d => if d.asset_code ≠ "" then d.asset_code else d.asset_name
    | none => ""

/-- Label test of `extract_netsuite_id`: any NetSuite-ish term occurs in the
lower-cased label. -/
def netsuiteLabelMatch (label : String) : Bool :=
  ["netsuite", "sales order", "so id", "salesorder"].any fun term =>
    decide (pyIn term (pyLower label))

/-- `extract_netsuite_id(job)` (lines 181–194): first custom field whose
label fuzzily matches and whose value is non-blank after trimming. -/
def extract_netsuite_id_fields : List CustomField → Option String
  | [] => none
  | f :: rest =>
    if netsuiteLabelMatch f.label ∧ f.value ≠ "" ∧ pyStrip f.value ≠ "" then
      some (pyStrip f.value)
    else
      extract_netsuite_id_fields rest

def extract_netsuite_id (job : Job) : Option String :=
  extract_netsuite_id_fields job.custom_fields

/-- `extract_line_items(job)` (lines 196–218). -/
def extract_line_items (job : Job) : List LineItem :=
  job.products.map fun p =>
    ⟨p.product_name, p.product_id, joinComma p.serial_nos, p.quantity, p.price,
      p.product_type⟩

/-- `extract_checklist_parts(job)` (lines 220–248). -/
def extract_checklist_parts (job : Job) : List ChecklistPart :=
  job.job_status.flatMap fun st =>
    st.checklist.flatMap fun item =>
      (extract_serial_from_text item.answer).map fun serial =>
        ⟨item.question, serial, pyTake 200 item.answer, st.status_name,
          item.question, item.updated_at⟩

/-- One stored custom field (`extract_custom_fields` output shape). -/
structure ExtractedField where
  field_label : String
  field_value : String
  field_type : String
  deriving Repr, DecidableEq

/-- `extract_custom_fields(job)` (lines 250–261). -/
def extract_custom_fields (job : Job) : List ExtractedField :=
  job.custom_fields.map fun f => ⟨f.label, f.value, f.field_type⟩

/-- `get_jira_link(job)` (lines 263–271). -/
def get_jira_link_fields : List CustomField → Option String
  | [] => none
  | f :: rest =>
    if pyIn "jira" (pyLower f.label) then some f.value else get_jira_link_fields rest

def get_jira_link (job : Job) : Option String :=
  get_jira_link_fields job.custom_fields

/-- `get_slack_link(job)` (lines 273–280). -/
def get_slack_link_fields : List CustomField → Option String
  | [] => none
  | f :: rest =>
    if pyIn "slack" (pyLower f.label) then some f.value else get_slack_link_fields rest

def get_slack_link (job : Job) : Option String :=
  get_slack_link_fields job.custom_fields

/-- `get_completion_date(job)` (lines 282–292): reverse-scan the status
history for the most recent `COMPLETED`/`CLOSED` status. -/
def get_completion_date (job : Job) : Option String :=
  (job.job_status.reverse.find? fun st =>
    st.status_type = "COMPLETED" ∨ st.status_type = "CLOSED").map (·.updated_at)

/-- The reverse status walk of `get_service_team` (lines 294–330): for the
most recent non-`NEW` status with a truthy `done_by`, look the user up in
`assigned_to`; a found user with a non-empty team name returns it, a found
user with an empty team name breaks the inner loop and continues with the
next (earlier) status, as does an absent user. -/
def serviceTeamLoop (assigned_to : List Assignment) : List Status → Option String
  | [] => none
  | st :: rest =>
    if st.status_type ≠ "NEW" then
      match st.done_by with
      | some db =>
        match assigned_to.find? fun a => a.user_uid = db.user_uid with
        | some a =>
          if a.team_name ≠ "" then some a.team_name
          else serviceTeamLoop assigned_to rest
        | none => serviceTeamLoop assigned_to rest
      | none => serviceTeamLoop assigned_to rest
    else serviceTeamLoop assigned_to rest

/-- `get_service_team(job)`: the status walk, then the `assigned_to_team[0]`
fallback. -/
def get_service_team (job : Job) : Option String :=
  match serviceTeamLoop job.assigned_to job.job_status.reverse with
  | some t => some t
  | none =>
    match job.assigned_to_team with
    | [] => none
    | t :: _ => if t.team_name ≠ "" then some t.team_name else none

/-- `job.get('job_status', [{}])[0].get('status_name', '') if
job.get('job_status') else ''` (line 443). -/
def job_status_name (job : Job) : String :=
  match job.job_status with
  | [] => ""
  | st :: _ => st.status_name

/-! ## ApiClient: `enrich_jobs_with_assets` (`src/streamlit_sync.py` lines 233–373)

The thread pool issues one `fetch_job_details` per job and collects results
in completion order; results are stored into a pre-sized slot array through
`job_uid_to_index` (a dict comprehension — on duplicate uids the later index
wins).  The completion order is an arbitrary permutation of the submitted
tasks, modelled as an explicit `order` parameter; the per-uid fetch outcome
(success with the detail record, or an error string — the code treats a
worker exception like an error) is the `oracle` parameter. -/

/-- `{job.get('job_uid'): idx for idx, job in enumerate(jobs)}` looked up at
`uid`: the *last* index whose job has this uid. -/
def lastIdxAux : List Job → Option String → Nat → Option Nat
  | [], _, _ => none
  | j :: rest, uid, i =>
    match lastIdxAux rest uid (i + 1) with
    | some k => some k
    | none => if j.job_uid = uid then some i else none

def job_uid_to_index (jobs : List Job) (uid : Option String) : Option Nat :=
  lastIdxAux jobs uid 0

/-- `enriched_jobs[idx] = jobs[idx]; enriched_jobs[idx]['assets'] = []`. -/
def setAssetsEmpty (j : Job) : Job := { j with assets := [] }

/-- Handling of one completed future: write the detail record — or, on a
fetch error, the original record with `assets := []` — into the slot the
uid-to-index dict names. -/
def enrichStep (jobs : List Job) (oracle : Option String → Except String Job)
    (acc : List (Option Job)) (k : Fin jobs.length) : List (Option Job) :=
  let job := jobs.get k
  match job_uid_to_index jobs job.job_uid with
  | some idx =>
    match oracle job.job_uid with
    | .ok d => acc.set idx (some d)
    | .error _ =>
      match jobs.get? idx with
      | some jo => acc.set idx (some (setAssetsEmpty jo))
      | none => acc
  | none => acc

/-- `enrich_jobs_with_assets(jobs)`: slots start as `None`; completed
futures fill them in completion order. -/
def enrich_jobs_with_assets (jobs : List Job)
    (oracle : Option String → Except String Job) (order : List (Fin jobs.length)) :
    List (Option Job) :=
  order.foldl (enrichStep jobs oracle) (List.replicate jobs.length none)

/-- What the slot of `jobs[i]` must hold at the end. -/
def enrichExpected (oracle : Option String → Except String Job) (j : Job) : Job :=
  match oracle j.job_uid with
  | .ok d => d
  | .error _ => setAssetsEmpty j

theorem lastIdxAux_none {jobs : List Job} {uid : Option String}
    (h : ∀ j ∈ jobs, j.job_uid ≠ uid) : ∀ i, lastIdxAux jobs uid i = none := by
  induction jobs with
  | nil => intro i; rfl
  | cons j rest ih =>
    intro i
    unfold lastIdxAux
    rw [ih fun j' hj' => h j' (List.mem_cons_of_mem j hj'),
      if_neg (h j (List.mem_cons_self j rest))]

theorem lastIdxAux_nodup (jobs : List Job)
    (hnodup : (jobs.map (·.job_uid)).Nodup) (i : Nat) (hi : i < jobs.length) :
    ∀ base, lastIdxAux jobs (jobs[i].job_uid) base = some (base + i) := by
  induction jobs generalizing i with
  | nil => exact absurd hi (by simp)
  | cons j rest ih =>
    rw [List.map_cons, List.nodup_cons] at hnodup
    obtain ⟨hj, hrest⟩ := hnodup
    intro base
    match i, hi with
    | 0, hi =>
      unfold lastIdxAux
      simp only [List.getElem_cons_zero]
      rw [lastIdxAux_none (fun j' hj' heq => hj (by
        rw [← heq]; exact List.mem_map_of_mem _ hj'))]
      simp
    | m + 1, hi =>
      unfold lastIdxAux
      simp only [List.getElem_cons_succ]
      rw [ih hrest m (by simpa using hi) (base + 1)]
      show some (base + 1 + m) = some (base + (m + 1))
      congr 1
      omega

theorem job_uid_to_index_nodup (jobs : List Job)
    (hnodup : (jobs.map (·.job_uid)).Nodup) (k : Fin jobs.length) :
    job_uid_to_index jobs ((jobs.get k).job_uid) = some k.val := by
  have h := lastIdxAux_nodup jobs hnodup k.val k.isLt 0
  simpa [job_uid_to_index, List.get_eq_getElem] using h

theorem enrichStep_eq (jobs : List Job) (oracle : Option String → Except String Job)
    (hnodup : (jobs.map (·.job_uid)).Nodup) (acc : List (Option Job))
    (k : Fin jobs.length) :
    enrichStep jobs oracle acc k =
      acc.set k.val (some (enrichExpected oracle (jobs.get k))) := by
  simp only [enrichStep, enrichExpected]
  rw [job_uid_to_index_nodup jobs hnodup k]
  cases oracle (jobs.get k).job_uid with
  | ok d => rfl
  | error e =>
    show (match jobs.get? k.val with
      | some jo => acc.set k.val (some (setAssetsEmpty jo))
      | none => acc) = acc.set k.val (some (setAssetsEmpty (jobs.get k)))
    rw [List.get?_eq_getElem?, List.getElem?_eq_getElem k.isLt]
    rfl

theorem enrich_fold_length (jobs : List Job) (oracle : Option String → Except String Job)
    (hnodup : (jobs.map (·.job_uid)).Nodup) (order : List (Fin jobs.length))
    (acc : List (Option Job)) :
    (order.foldl (enrichStep jobs oracle) acc).length = acc.length := by
  induction order generalizing acc with
  | nil => rfl
  | cons k rest ih =>
    rw [List.foldl_cons, ih, enrichStep_eq jobs oracle hnodup, List.length_set]

theorem enrich_fold_keeps (jobs : List Job) (oracle : Option String → Except String Job)
    (hnodup : (jobs.map (·.job_uid)).Nodup) (order : List (Fin jobs.length))
    (acc : List (Option Job)) (i : Fin jobs.length)
    (hacc : acc[i.val]? = some (some (enrichExpected oracle (jobs.get i)))) :
    (order.foldl (enrichStep jobs oracle) acc)[i.val]? =
      some (some (enrichExpected oracle (jobs.get i))) := by
  induction order generalizing acc with
  | nil => exact hacc
  | cons k rest ih =>
    rw [List.foldl_cons, enrichStep_eq jobs oracle hnodup]
    apply ih
    by_cases hk : k.val = i.val
    · have hik : k = i := Fin.ext hk
      subst hik
      have hlt : k.val < acc.length := by
        by_contra hlen
        rw [List.getElem?_eq_none (by omega)] at hacc
        exact Option.noConfusion hacc
      rw [List.getElem?_set_self hlt]
    · rw [List.getElem?_set_ne hk]
      exact hacc

theorem enrich_fold_written (jobs : List Job) (oracle : Option String → Except String Job)
    (hnodup : (jobs.map (·.job_uid)).Nodup) (order : List (Fin jobs.length))
    (acc : List (Option Job)) (hlen : acc.length = jobs.length) (i : Fin jobs.length)
    (hmem : i ∈ order) :
    (order.foldl (enrichStep jobs oracle) acc)[i.val]? =
      some (some (enrichExpected oracle (jobs.get i))) := by
  induction order generalizing acc with
  | nil => exact absurd hmem (by simp)
  | cons k rest ih =>
    rw [List.foldl_cons, enrichStep_eq jobs oracle hnodup]
    by_cases hk : k = i
    · subst hk
      apply enrich_fold_keeps jobs oracle hnodup
      rw [List.getElem?_set_self (by rw [hlen]; exact k.isLt)]
    · have hmem' : i ∈ rest := by
        rcases List.mem_cons.mp hmem with h | h
        · exact absurd h.symm hk
        · exact h
      exact ih _ (by simp [hlen]) hmem'

/-- C5: on input jobs with pairwise-distinct `job_uid`s, enrichment returns
a list of the same length whose slot `i` holds the detail record fetched for
`jobs[i]` — or, when that fetch failed, `jobs[i]` itself with `assets := []`
— for *every* completion order of the concurrent fetches (any permutation
of the submitted tasks); no record is dropped. -/
theorem claim_C5_enrich_preserves_order (jobs : List Job)
    (oracle : Option String → Except String Job) (order : List (Fin jobs.length))
    (hperm : order.Perm (List.finRange jobs.length))
    (hnodup : (jobs.map (·.job_uid)).Nodup) :
    (enrich_jobs_with_assets jobs oracle order).length = jobs.length ∧
    ∀ i : Fin jobs.length,
      (enrich_jobs_with_assets jobs oracle order)[i.val]? =
        some (some (enrichExpected oracle (jobs.get i))) := by
  constructor
  · rw [enrich_jobs_with_assets, enrich_fold_length jobs oracle hnodup,
      List.length_replicate]
  · intro i
    apply enrich_fold_written jobs oracle hnodup order _ (List.length_replicate _ _) i
    exact hperm.mem_iff.mpr (List.mem_finRange i)

def c5job (uid : String) : Job where
  job_uid := some uid
  job_category := JobCategoryField.absent
  customer := none
  customer_name := ""
  products := []
  job_status := []
  custom_fields := []
  assigned_to := []
  assigned_to_team := []
  assets := []
  work_order_number := ""
  job_number := ""
  job_title := "summary"
  created_at := ""
  updated_at := ""

def c5detail (uid : String) : Job :=
  { c5job uid with job_title := "detail", assets := [⟨some ⟨"S1", ""⟩⟩] }

def c5jobs : List Job := [c5job "a", c5job "b", c5job "c"]

def c5oracle : Option String → Except String Job := fun u =>
  if u = some "b" then Except.error "Timeout after 3 retries"
  else
    match u with
    | some s => Except.ok (c5detail s)
    | none => Except.error "Empty response"

def c5order : List (Fin c5jobs.length) := [⟨2, by decide⟩, ⟨0, by decide⟩, ⟨1, by decide⟩]

/-- C5 witness: three jobs, the middle fetch failing, completions arriving
in the order 2, 0, 1 — the output is index-aligned with the input, with the
failed job kept as its original record with `assets := []`. -/
theorem claim_C5_enrich_preserves_order_witness :
    (enrich_jobs_with_assets c5jobs c5oracle c5order).length = 3 ∧
    (enrich_jobs_with_assets c5jobs c5oracle c5order)[(0 : Nat)]? =
      some (some (c5detail "a")) ∧
    (enrich_jobs_with_assets c5jobs c5oracle c5order)[(1 : Nat)]? =
      some (some (setAssetsEmpty (c5job "b"))) ∧
    (enrich_jobs_with_assets c5jobs c5oracle c5order)[(2 : Nat)]? =
      some (some (c5detail "c")) := by
  obtain ⟨hlen, hall⟩ := claim_C5_enrich_preserves_order c5jobs c5oracle c5order
    (by decide) (by decide)
  exact ⟨hlen, (hall ⟨0, by decide⟩).trans (by decide),
    (hall ⟨1, by decide⟩).trans (by decide), (hall ⟨2, by decide⟩).trans (by decide)⟩

/-! ## Store and SyncCoordinator
(`sync_jobs_to_database`, `src/sync_jobs_to_db.py` lines 341–697)

SQLite tables are lists of typed rows.  `INSERT OR REPLACE` under a primary
key deletes the conflicting rows and appends the new row;
`INSERT OR IGNORE` under a primary key appends only when the key is absent.
The schema file (`database_jobs_schema.sql`) is not among the sources; the
only schema facts used are the primary/unique keys the spec names (§3, §6)
and the `is_resolved` default (see `flagRows`).  `job_custom_fields` rows
are inserted with `INSERT OR IGNORE`; with its constraint unknown they are
modelled as plain inserts after the per-job delete (the rows are a pure
function of the job either way, which is all the claims use).

The model covers a sync run with no Slack webhook configured (the default:
`slack_webhook_url=None` and `SLACK_WEBHOOK_URL` unset), so the
notification branch (lines 599–642) is never taken and `notification_log`
is untouched.  With typed jobs no per-job exception can fire, so the
`except` arm (lines 650–653) is dead and `errors` stays empty.
`datetime.now()` is the `now` parameter. -/

structure JobRow where
  job_uid : String
  job_number : String
  job_title : String
  job_status : String
  job_category : String
  customer_name : String
  organization_uid : Option String
  organization_name : Option String
  service_team : Option String
  asset_name : String
  created_at : String
  updated_at : String
  completed_at : Option String
  has_line_items : Bool
  has_checklist_parts : Bool
  has_netsuite_id : Bool
  netsuite_sales_order_id : Option String
  jira_link : Option String
  slack_link : Option String
  synced_at : String
  deriving Repr, DecidableEq

structure LineItemRow where
  job_uid : String
  item_name : String
  item_code : String
  item_serial : String
  quantity : Nat
  price : String
  line_item_type : String
  created_at : String
  deriving Repr, DecidableEq

structure ChecklistPartRow where
  job_uid : String
  checklist_question : String
  part_serial : String
  part_description : String
  status_name : String
  position : String
  updated_at : String
  deriving Repr, DecidableEq

structure CustomFieldRow where
  job_uid : String
  field_label : String
  field_value : String
  field_type : String
  deriving Repr, DecidableEq

structure FlagRow where
  job_uid : String
  flag_type : String
  flag_severity : String
  flag_message : String
  details : FlagDetails
  is_resolved : Bool
  created_at : String
  deriving Repr, DecidableEq

structure OrgRow where
  organization_uid : String
  organization_name : String
  updated_at : String
  deriving Repr, DecidableEq

structure SyncLogRow where
  sync_started_at : String
  sync_completed_at : Option String
  jobs_processed : Option Nat
  flags_created : Option Nat
  errors : Option String
  status : String
  deriving Repr, DecidableEq

structure DB where
  jobs : List JobRow
  job_line_items : List LineItemRow
  job_checklist_parts : List ChecklistPartRow
  job_custom_fields : List CustomFieldRow
  validation_flags : List FlagRow
  organizations : List OrgRow
  sync_log : List SyncLogRow
  notification_log : List NotificationRow
  deriving Repr, DecidableEq

/-- A job the loop body actually processes: `job_uid` is truthy (line 390)
and the derived category is in the allowlist (line 400); `none` when the
loop `continue`s past it. -/
def processedUid (job : Job) : Option String :=
  match job.job_uid with
  | some u =>
    if u ≠ "" ∧ get_job_category job ∈ ALLOWED_JOB_CATEGORIES then some u else none
  | none => none

/-- `customer.get('customer_organization', {})` after the
`customer and isinstance(customer, dict)` guard (lines 405–413). -/
def extractOrg (job : Job) : Option OrgInfo :=
  match job.customer with
  | some c => c.customer_organization
  | none => none

def org_uid_of (job : Job) : Option String :=
  match extractOrg job with
  | some o => o.organization_uid
  | none => none

def org_name_of (job : Job) : Option String :=
  (extractOrg job).map (·.organization_name)

/-- `INSERT OR IGNORE INTO organizations` guarded by a truthy
`organization_uid` (lines 416–422; the per-run `organizations_synced` memo
set only avoids re-issuing SQL and has no further state effect). -/
def orgUpsert (now : String) (orgs : List OrgRow) (job : Job) : List OrgRow :=
  match extractOrg job with
  | some o =>
    match o.organization_uid with
    | some ouid =>
      if ouid ≠ "" ∧ ¬ orgs.any (fun r => r.organization_uid == ouid) then
        orgs ++ [⟨ouid, o.organization_name, now⟩]
      else orgs
    | none => orgs
  | none => orgs

/-- The `INSERT OR REPLACE INTO jobs` row (lines 431–460). -/
def mkJobRow (now : String) (job : Job) (uid : String) : JobRow where
  job_uid := uid
  job_number := if job.work_order_number ≠ "" then job.work_order_number else job.job_number
  job_title := job.job_title
  job_status := job_status_name job
  job_category := get_job_category job
  customer_name := job.customer_name
  organization_uid := org_uid_of job
  organization_name := org_name_of job
  service_team := get_service_team job
  asset_name := extract_asset_from_job job
  created_at := job.created_at
  updated_at := job.updated_at
  completed_at := get_completion_date job
  has_line_items := !(extract_line_items job).isEmpty
  has_checklist_parts := !(extract_checklist_parts job).isEmpty
  has_netsuite_id := optTruthy (extract_netsuite_id job)
  netsuite_sales_order_id := extract_netsuite_id job
  jira_link := get_jira_link job
  slack_link := get_slack_link job
  synced_at := now

def lineItemRows (uid : String) (job : Job) : List LineItemRow :=
  (extract_line_items job).map fun it =>
    ⟨uid, it.item_name, it.item_code, it.item_serial, it.quantity, it.price,
      it.line_item_type, job.created_at⟩

def checklistPartRows (uid : String) (job : Job) : List ChecklistPartRow :=
  (extract_checklist_parts job).map fun p =>
    ⟨uid, p.checklist_question, p.part_serial, p.part_description, p.status_name,
      p.position, p.updated_at⟩

def customFieldRows (uid : String) (job : Job) : List CustomFieldRow :=
  (extract_custom_fields job).map fun f =>
    ⟨uid, f.field_label, f.field_value, f.field_type⟩

/-- The freshly inserted `validation_flags` rows (lines 584–597).  Modelled
from the spec: the `INSERT` names no `is_resolved` column and the schema
file is absent from the sources; per spec §3/§9 a fresh flag row is
unresolved (`is_resolved = 0`). -/
def flagRows (now : String) (uid : String) (job : Job) : List FlagRow :=
  (validate_job uid (extract_line_items job) (extract_checklist_parts job)
    (extract_netsuite_id job) (category_for_validation job)).map fun f =>
    ⟨uid, f.flag_type, f.flag_severity, f.flag_message, f.details, false, now⟩

/-- `DELETE FROM <child> WHERE job_uid = ?` followed by the inserts. -/
def deleteThenInsert {ρ : Type} (uidOf : ρ → String) (tbl : List ρ) (uid : String)
    (rows : List ρ) : List ρ :=
  tbl.filter (fun r => uidOf r != uid) ++ rows

/-- Loop state: the database plus the `jobs_processed`/`flags_created`
counters the final `sync_log` update stores. -/
structure SyncState where
  db : DB
  jobs_processed : Nat
  flags_created : Nat

/-- One iteration of the `for job in jobs` loop (lines 388–648), with no
webhook configured. -/
def processJob (now : String) (s : SyncState) (job : Job) : SyncState :=
  match processedUid job with
  | none => s
  | some uid =>
    let db := s.db
    let flags := flagRows now uid job
    { db :=
        { jobs := deleteThenInsert JobRow.job_uid db.jobs uid [mkJobRow now job uid],
          job_line_items :=
            deleteThenInsert LineItemRow.job_uid db.job_line_items uid (lineItemRows uid job),
          job_checklist_parts :=
            deleteThenInsert ChecklistPartRow.job_uid db.job_checklist_parts uid
              (checklistPartRows uid job),
          job_custom_fields :=
            deleteThenInsert CustomFieldRow.job_uid db.job_custom_fields uid
              (customFieldRows uid job),
          validation_flags :=
            deleteThenInsert FlagRow.job_uid db.validation_flags uid flags,
          organizations := orgUpsert now db.organizations job,
          sync_log := db.sync_log,
          notification_log := db.notification_log },
      jobs_processed := s.jobs_processed + 1,
      flags_created := s.flags_created + flags.length }

def startSyncRow (now : String) : SyncLogRow :=
  ⟨now, none, none, none, none, "in_progress"⟩

/-- The `UPDATE sync_log ... WHERE id = ?` at the end of the run (lines
656–670); `errors` stays `NULL` since no per-job exception can fire on
typed jobs. -/
def finishSyncRow (now : String) (jobs_processed flags_created : Nat)
    (row : SyncLogRow) : SyncLogRow :=
  { row with
    sync_completed_at := some now,
    jobs_processed := some jobs_processed,
    flags_created := some flags_created,
    errors := none,
    status := "completed" }

def modifyAt {β : Type} (f : β → β) : Nat → List β → List β
  | _, [] => []
  | 0, x :: xs => f x :: xs
  | n + 1, x :: xs => x :: modifyAt f n xs

/-- `sync_jobs_to_database(jobs)` with no webhook configured: delete stored
jobs outside the allowlist, open a `sync_log` row, run the per-job loop,
finalize the `sync_log` row. -/
def sync_jobs_to_database (db : DB) (jobs : List Job) (now : String) : DB :=
  let db0 : DB :=
    { db with jobs := db.jobs.filter fun r =>
        ALLOWED_JOB_CATEGORIES.contains r.job_category }
  let sync_id := db0.sync_log.length
  let db1 : DB := { db0 with sync_log := db0.sync_log ++ [startSyncRow now] }
  let final := jobs.foldl (processJob now) ⟨db1, 0, 0⟩
  { final.db with
    sync_log :=
      modifyAt (finishSyncRow now final.jobs_processed final.flags_created) sync_id
        final.db.sync_log }

/-! ### Per-table decomposition of the sync loop

Each child table evolves independently under the loop: for every processed
job, delete-by-uid then insert rows that are a pure function of the job.
`childFold` is that evolution in isolation; the factoring lemmas identify
each table of the loop's result with a `childFold`. -/

def childStep {ρ : Type} (uidOf : ρ → String) (rowsOf : Job → List ρ)
    (tbl : List ρ) (job : Job) : List ρ :=
  match processedUid job with
  | some uid => deleteThenInsert uidOf tbl uid (rowsOf job)
  | none => tbl

def childFold {ρ : Type} (uidOf : ρ → String) (rowsOf : Job → List ρ)
    (tbl : List ρ) (jobs : List Job) : List ρ :=
  jobs.foldl (childStep uidOf rowsOf) tbl

/-- The uids of the jobs a run processes. -/
def processedUids (jobs : List Job) : List String :=
  jobs.filterMap processedUid

def jobRowsOf (now : String) (job : Job) : List JobRow :=
  match processedUid job with
  | some uid => [mkJobRow now job uid]
  | none => []

def liRowsOf (job : Job) : List LineItemRow :=
  match processedUid job with
  | some uid => lineItemRows uid job
  | none => []

def cpRowsOf (job : Job) : List ChecklistPartRow :=
  match processedUid job with
  | some uid => checklistPartRows uid job
  | none => []

def cfRowsOf (job : Job) : List CustomFieldRow :=
  match processedUid job with
  | some uid => customFieldRows uid job
  | none => []

def flRowsOf (now : String) (job : Job) : List FlagRow :=
  match processedUid job with
  | some uid => flagRows now uid job
  | none => []

def orgStep (now : String) (tbl : List OrgRow) (job : Job) : List OrgRow :=
  match processedUid job with
  | some _ => orgUpsert now tbl job
  | none => tbl

theorem foldl_processJob_jobs (now : String) (jobs : List Job) :
    ∀ s : SyncState, (jobs.foldl (processJob now) s).db.jobs =
      childFold JobRow.job_uid (jobRowsOf now) s.db.jobs jobs := by
  induction jobs with
  | nil => intro s; rfl
  | cons j rest ih =>
    intro s
    rw [List.foldl_cons, ih]
    show childFold _ _ (processJob now s j).db.jobs rest =
      childFold _ _ (childStep JobRow.job_uid (jobRowsOf now) s.db.jobs j) rest
    congr 1
    simp only [processJob, childStep, jobRowsOf]
    cases hj : processedUid j with
    | none => rfl
    | some uid => rfl

theorem foldl_processJob_line_items (now : String) (jobs : List Job) :
    ∀ s : SyncState, (jobs.foldl (processJob now) s).db.job_line_items =
      childFold LineItemRow.job_uid liRowsOf s.db.job_line_items jobs := by
  induction jobs with
  | nil => intro s; rfl
  | cons j rest ih =>
    intro s
    rw [List.foldl_cons, ih]
    show childFold _ _ (processJob now s j).db.job_line_items rest =
      childFold _ _ (childStep LineItemRow.job_uid liRowsOf s.db.job_line_items j) rest
    congr 1
    simp only [processJob, childStep, liRowsOf]
    cases hj : processedUid j with
    | none => rfl
    | some uid => rfl

theorem foldl_processJob_checklist_parts (now : String) (jobs : List Job) :
    ∀ s : SyncState, (jobs.foldl (processJob now) s).db.job_checklist_parts =
      childFold ChecklistPartRow.job_uid cpRowsOf s.db.job_checklist_parts jobs := by
  induction jobs with
  | nil => intro s; rfl
  | cons j rest ih =>
    intro s
    rw [List.foldl_cons, ih]
    show childFold _ _ (processJob now s j).db.job_checklist_parts rest =
      childFold _ _
        (childStep ChecklistPartRow.job_uid cpRowsOf s.db.job_checklist_parts j) rest
    congr 1
    simp only [processJob, childStep, cpRowsOf]
    cases hj : processedUid j with
    | none => rfl
    | some uid => rfl

theorem foldl_processJob_custom_fields (now : String) (jobs : List Job) :
    ∀ s : SyncState, (jobs.foldl (processJob now) s).db.job_custom_fields =
      childFold CustomFieldRow.job_uid cfRowsOf s.db.job_custom_fields jobs := by
  induction jobs with
  | nil => intro s; rfl
  | cons j rest ih =>
    intro s
    rw [List.foldl_cons, ih]
    show childFold _ _ (processJob now s j).db.job_custom_fields rest =
      childFold _ _
        (childStep CustomFieldRow.job_uid cfRowsOf s.db.job_custom_fields j) rest
    congr 1
    simp only [processJob, childStep, cfRowsOf]
    cases hj : processedUid j with
    | none => rfl
    | some uid => rfl

theorem foldl_processJob_flags (now : String) (jobs : List Job) :
    ∀ s : SyncState, (jobs.foldl (processJob now) s).db.validation_flags =
      childFold FlagRow.job_uid (flRowsOf now) s.db.validation_flags jobs := by
  induction jobs with
  | nil => intro s; rfl
  | cons j rest ih =>
    intro s
    rw [List.foldl_cons, ih]
    show childFold _ _ (processJob now s j).db.validation_flags rest =
      childFold _ _
        (childStep FlagRow.job_uid (flRowsOf now) s.db.validation_flags j) rest
    congr 1
    simp only [processJob, childStep, flRowsOf]
    cases hj : processedUid j with
    | none => rfl
    | some uid => rfl

theorem foldl_processJob_orgs (now : String) (jobs : List Job) :
    ∀ s : SyncState, (jobs.foldl (processJob now) s).db.organizations =
      jobs.foldl (orgStep now) s.db.organizations := by
  induction jobs with
  | nil => intro s; rfl
  | cons j rest ih =>
    intro s
    rw [List.foldl_cons, List.foldl_cons, ih]
    congr 1
    simp only [processJob, orgStep]
    cases hj : processedUid j with
    | none => rfl
    | some uid => rfl

theorem foldl_processJob_sync_log (now : String) (jobs : List Job) :
    ∀ s : SyncState, (jobs.foldl (processJob now) s).db.sync_log = s.db.sync_log := by
  induction jobs with
  | nil => intro s; rfl
  | cons j rest ih =>
    intro s
    rw [List.foldl_cons, ih]
    simp only [processJob]
    cases hj : processedUid j with
    | none => rfl
    | some uid => rfl

theorem foldl_processJob_notification_log (now : String) (jobs : List Job) :
    ∀ s : SyncState,
      (jobs.foldl (processJob now) s).db.notification_log = s.db.notification_log := by
  induction jobs with
  | nil => intro s; rfl
  | cons j rest ih =>
    intro s
    rw [List.foldl_cons, ih]
    simp only [processJob]
    cases hj : processedUid j with
    | none => rfl
    | some uid => rfl

theorem sync_jobs_table (db : DB) (jobs : List Job) (now : String) :
    (sync_jobs_to_database db jobs now).jobs =
      childFold JobRow.job_uid (jobRowsOf now)
        (db.jobs.filter fun r => ALLOWED_JOB_CATEGORIES.contains r.job_category) jobs := by
  simp only [sync_jobs_to_database]
  rw [foldl_processJob_jobs]

theorem sync_line_items_table (db : DB) (jobs : List Job) (now : String) :
    (sync_jobs_to_database db jobs now).job_line_items =
      childFold LineItemRow.job_uid liRowsOf db.job_line_items jobs := by
  simp only [sync_jobs_to_database]
  rw [foldl_processJob_line_items]

theorem sync_checklist_parts_table (db : DB) (jobs : List Job) (now : String) :
    (sync_jobs_to_database db jobs now).job_checklist_parts =
      childFold ChecklistPartRow.job_uid cpRowsOf db.job_checklist_parts jobs := by
  simp only [sync_jobs_to_database]
  rw [foldl_processJob_checklist_parts]

theorem sync_custom_fields_table (db : DB) (jobs : List Job) (now : String) :
    (sync_jobs_to_database db jobs now).job_custom_fields =
      childFold CustomFieldRow.job_uid cfRowsOf db.job_custom_fields jobs := by
  simp only [sync_jobs_to_database]
  rw [foldl_processJob_custom_fields]

theorem sync_flags_table (db : DB) (jobs : List Job) (now : String) :
    (sync_jobs_to_database db jobs now).validation_flags =
      childFold FlagRow.job_uid (flRowsOf now) db.validation_flags jobs := by
  simp only [sync_jobs_to_database]
  rw [foldl_processJob_flags]

theorem sync_orgs_table (db : DB) (jobs : List Job) (now : String) :
    (sync_jobs_to_database db jobs now).organizations =
      jobs.foldl (orgStep now) db.organizations := by
  simp only [sync_jobs_to_database]
  rw [foldl_processJob_orgs]

theorem modifyAt_length {β : Type} (f : β → β) :
    ∀ (n : Nat) (l : List β), (modifyAt f n l).length = l.length := by
  intro n l
  induction l generalizing n with
  | nil => cases n <;> rfl
  | cons x xs ih =>
    match n with
    | 0 => rfl
    | m + 1 => simp [modifyAt, ih]

theorem sync_sync_log_length (db : DB) (jobs : List Job) (now : String) :
    (sync_jobs_to_database db jobs now).sync_log.length = db.sync_log.length + 1 := by
  simp only [sync_jobs_to_database]
  rw [modifyAt_length, foldl_processJob_sync_log]
  simp

theorem sync_notification_log (db : DB) (jobs : List Job) (now : String) :
    (sync_jobs_to_database db jobs now).notification_log = db.notification_log := by
  simp only [sync_jobs_to_database]
  rw [foldl_processJob_notification_log]

/-! ### Generic properties of the replace-children fold -/

theorem childFold_decompose {ρ : Type} (uidOf : ρ → String) (rowsOf : Job → List ρ)
    (jobs : List Job) :
    ∀ tbl : List ρ, childFold uidOf rowsOf tbl jobs =
      tbl.filter (fun r => !((processedUids jobs).contains (uidOf r))) ++
        childFold uidOf rowsOf [] jobs := by
  induction jobs with
  | nil =>
    intro tbl
    simp [childFold, processedUids]
  | cons j rest ih =>
    intro tbl
    show childFold uidOf rowsOf (childStep uidOf rowsOf tbl j) rest = _
    cases hj : processedUid j with
    | none =>
      have h1 : childStep uidOf rowsOf tbl j = tbl := by simp [childStep, hj]
      have h2 : childStep uidOf rowsOf ([] : List ρ) j = [] := by simp [childStep, hj]
      have h3 : processedUids (j :: rest) = processedUids rest := by
        simp [processedUids, List.filterMap_cons, hj]
      rw [h1, h3]
      conv_rhs => rw [show childFold uidOf rowsOf [] (j :: rest) =
        childFold uidOf rowsOf (childStep uidOf rowsOf [] j) rest from rfl, h2]
      exact ih tbl
    | some u =>
      have h1 : childStep uidOf rowsOf tbl j =
          tbl.filter (fun r => uidOf r != u) ++ rowsOf j := by
        simp [childStep, hj, deleteThenInsert]
      have h2 : childStep uidOf rowsOf ([] : List ρ) j = rowsOf j := by
        simp [childStep, hj, deleteThenInsert]
      have h3 : processedUids (j :: rest) = u :: processedUids rest := by
        simp [processedUids, List.filterMap_cons, hj]
      rw [h1, h3]
      conv_rhs => rw [show childFold uidOf rowsOf [] (j :: rest) =
        childFold uidOf rowsOf (childStep uidOf rowsOf [] j) rest from rfl, h2]
      rw [ih (tbl.filter (fun r => uidOf r != u) ++ rowsOf j), ih (rowsOf j),
        List.filter_append, List.filter_filter, List.append_assoc]
      congr 1
      apply List.filter_congr
      intro r _
      simp only [List.contains_cons, Bool.not_or, bne]
      rw [Bool.and_comm]

theorem childFold_provenance {ρ : Type} (uidOf : ρ → String) (rowsOf : Job → List ρ)
    (jobs : List Job) :
    ∀ (tbl : List ρ) (r : ρ), r ∈ childFold uidOf rowsOf tbl jobs →
      r ∈ tbl ∨ ∃ j, j ∈ jobs ∧ r ∈ rowsOf j := by
  induction jobs with
  | nil => exact fun tbl r h => Or.inl h
  | cons j rest ih =>
    intro tbl r h
    rcases ih (childStep uidOf rowsOf tbl j) r h with hmem | ⟨j', hj', hr⟩
    · cases hj : processedUid j with
      | none =>
        simp only [childStep, hj] at hmem
        exact Or.inl hmem
      | some u =>
        simp only [childStep, hj, deleteThenInsert] at hmem
        rcases List.mem_append.mp hmem with h1 | h2
        · exact Or.inl (List.mem_of_mem_filter h1)
        · exact Or.inr ⟨j, List.mem_cons_self _ _, h2⟩
    · exact Or.inr ⟨j', List.mem_cons_of_mem _ hj', hr⟩

theorem childFold_mem_processed {ρ : Type} (uidOf : ρ → String) (rowsOf : Job → List ρ)
    (Hnone : ∀ job, processedUid job = none → rowsOf job = [])
    (Hrow : ∀ job uid, processedUid job = some uid → ∀ r ∈ rowsOf job, uidOf r = uid)
    (jobs : List Job) :
    ∀ r ∈ childFold uidOf rowsOf [] jobs, uidOf r ∈ processedUids jobs := by
  intro r h
  rcases childFold_provenance uidOf rowsOf jobs [] r h with h0 | ⟨j, hj, hr⟩
  · simp at h0
  · cases hj' : processedUid j with
    | none =>
      rw [Hnone j hj'] at hr
      simp at hr
    | some u =>
      rw [Hrow j u hj' r hr]
      show u ∈ jobs.filterMap processedUid
      exact List.mem_filterMap.mpr ⟨j, hj, hj'⟩

theorem map_filter_bne {ρ : Type} (uidOf : ρ → String) (tbl : List ρ) (u : String) :
    (tbl.filter (fun r => uidOf r != u)).map uidOf =
      (tbl.map uidOf).filter (fun x => x != u) := by
  induction tbl with
  | nil => rfl
  | cons r rest ih =>
    cases h : (uidOf r != u) with
    | true => simp [List.filter_cons, h, ih]
    | false => simp [List.filter_cons, h, ih]

theorem childFold_map_eq {ρ : Type} (uidOf : ρ → String)
    (rowsOf₁ rowsOf₂ : Job → List ρ)
    (Hmap : ∀ j, (rowsOf₁ j).map uidOf = (rowsOf₂ j).map uidOf) (jobs : List Job) :
    ∀ tbl₁ tbl₂, tbl₁.map uidOf = tbl₂.map uidOf →
      (childFold uidOf rowsOf₁ tbl₁ jobs).map uidOf =
        (childFold uidOf rowsOf₂ tbl₂ jobs).map uidOf := by
  induction jobs with
  | nil => exact fun t₁ t₂ h => h
  | cons j rest ih =>
    intro t₁ t₂ h
    apply ih
    cases hj : processedUid j with
    | none =>
      simp only [childStep, hj]
      exact h
    | some u =>
      simp only [childStep, hj, deleteThenInsert]
      rw [List.map_append, List.map_append, map_filter_bne, map_filter_bne, h, Hmap j]

theorem childFold_length_eq {ρ : Type} (uidOf : ρ → String)
    (rowsOf₁ rowsOf₂ : Job → List ρ)
    (Hmap : ∀ j, (rowsOf₁ j).map uidOf = (rowsOf₂ j).map uidOf) (jobs : List Job)
    (tbl₁ tbl₂ : List ρ) (h : tbl₁.map uidOf = tbl₂.map uidOf) :
    (childFold uidOf rowsOf₁ tbl₁ jobs).length =
      (childFold uidOf rowsOf₂ tbl₂ jobs).length := by
  rw [← List.length_map (childFold uidOf rowsOf₁ tbl₁ jobs) uidOf,
    childFold_map_eq uidOf rowsOf₁ rowsOf₂ Hmap jobs tbl₁ tbl₂ h, List.length_map]

theorem childFold_filter_none {ρ : Type} (uidOf : ρ → String) (rowsOf : Job → List ρ)
    (Hrow : ∀ job uid, processedUid job = some uid → ∀ r ∈ rowsOf job, uidOf r = uid)
    (u : String) (jobs : List Job)
    (hnp : ∀ j ∈ jobs, processedUid j ≠ some u) :
    ∀ tbl : List ρ, (childFold uidOf rowsOf tbl jobs).filter (fun r => uidOf r == u) =
      tbl.filter (fun r => uidOf r == u) := by
  induction jobs with
  | nil => intro tbl; rfl
  | cons j rest ih =>
    intro tbl
    have hrest : ∀ j' ∈ rest, processedUid j' ≠ some u := fun j' hj' =>
      hnp j' (List.mem_cons_of_mem _ hj')
    show (childFold uidOf rowsOf (childStep uidOf rowsOf tbl j) rest).filter _ = _
    rw [ih hrest]
    cases hj : processedUid j with
    | none => simp [childStep, hj]
    | some v =>
      have hne : v ≠ u := fun he => hnp j (List.mem_cons_self _ _) (he ▸ hj)
      simp only [childStep, hj, deleteThenInsert]
      rw [List.filter_append, List.filter_filter]
      have h2 : (rowsOf j).filter (fun r => uidOf r == u) = [] := by
        rw [List.filter_eq_nil_iff]
        intro r hr
        rw [Hrow j v hj r hr]
        simp [hne]
      rw [h2, List.append_nil]
      apply List.filter_congr
      intro r _
      by_cases hru : uidOf r = u
      · simp [hru, bne]
        exact fun he => hne he.symm
      · have : (uidOf r == u) = false := beq_eq_false_iff_ne.mpr hru
        simp [this]

theorem childFold_filter_unique {ρ : Type} (uidOf : ρ → String) (rowsOf : Job → List ρ)
    (Hrow : ∀ job uid, processedUid job = some uid → ∀ r ∈ rowsOf job, uidOf r = uid)
    (u : String) (j : Job) (hu : processedUid j = some u) (jobs : List Job) :
    ∀ tbl : List ρ, j ∈ jobs → (∀ j' ∈ jobs, processedUid j' = some u → j' = j) →
      (childFold uidOf rowsOf tbl jobs).filter (fun r => uidOf r == u) = rowsOf j := by
  induction jobs with
  | nil => intro tbl hj; exact absurd hj (by simp)
  | cons j₀ rest ih =>
    intro tbl hj huniq
    show (childFold uidOf rowsOf (childStep uidOf rowsOf tbl j₀) rest).filter _ = _
    by_cases hproc : ∃ j' ∈ rest, processedUid j' = some u
    · obtain ⟨j', hj', hu'⟩ := hproc
      have hjj : j' = j := huniq j' (List.mem_cons_of_mem _ hj') hu'
      subst hjj
      exact ih _ hj' fun j'' h hu'' => huniq j'' (List.mem_cons_of_mem _ h) hu''
    · have hj0 : j₀ = j := by
        rcases List.mem_cons.mp hj with h | h
        · exact h.symm
        · exact absurd ⟨j, h, hu⟩ hproc
      subst hj0
      have hnp : ∀ j' ∈ rest, processedUid j' ≠ some u := fun j' h hu' =>
        hproc ⟨j', h, hu'⟩
      rw [childFold_filter_none uidOf rowsOf Hrow u rest hnp]
      simp only [childStep, hu, deleteThenInsert]
      rw [List.filter_append, List.filter_filter]
      have h1 : tbl.filter (fun a => (uidOf a == u) && (uidOf a != u)) = [] := by
        rw [List.filter_eq_nil_iff]
        intro a _
        cases h : (uidOf a == u) <;> simp [bne, h]
      have h2 : (rowsOf j₀).filter (fun r => uidOf r == u) = rowsOf j₀ := by
        rw [List.filter_eq_self]
        intro r hr
        rw [Hrow j₀ u hu r hr]
        simp
      rw [h1, h2, List.nil_append]

/-! ### The per-table row functions satisfy the fold hypotheses -/

theorem processedUid_spec {job : Job} {u : String} (h : processedUid job = some u) :
    job.job_uid = some u ∧ u ≠ "" ∧ get_job_category job ∈ ALLOWED_JOB_CATEGORIES := by
  unfold processedUid at h
  cases hj : job.job_uid with
  | none => rw [hj] at h; exact Option.noConfusion h
  | some v =>
    rw [hj] at h
    have h' : (if v ≠ "" ∧ get_job_category job ∈ ALLOWED_JOB_CATEGORIES then some v
      else none) = some u := h
    by_cases hc : v ≠ "" ∧ get_job_category job ∈ ALLOWED_JOB_CATEGORIES
    · rw [if_pos hc] at h'
      obtain rfl : v = u := Option.some.inj h'
      exact ⟨rfl, hc.1, hc.2⟩
    · rw [if_neg hc] at h'
      exact Option.noConfusion h'

theorem jobRowsOf_none (now : String) :
    ∀ job, processedUid job = none → jobRowsOf now job = [] := by
  intro job h
  simp [jobRowsOf, h]

theorem jobRowsOf_uid (now : String) :
    ∀ job uid, processedUid job = some uid →
      ∀ r ∈ jobRowsOf now job, JobRow.job_uid r = uid := by
  intro job uid h r hr
  simp only [jobRowsOf, h, List.mem_singleton] at hr
  subst hr
  rfl

theorem jobRowsOf_map (now1 now2 : String) :
    ∀ j, (jobRowsOf now2 j).map JobRow.job_uid = (jobRowsOf now1 j).map JobRow.job_uid := by
  intro j
  cases h : processedUid j with
  | none => simp [jobRowsOf, h]
  | some u => simp [jobRowsOf, h, mkJobRow]

theorem liRowsOf_none : ∀ job, processedUid job = none → liRowsOf job = [] := by
  intro job h
  simp [liRowsOf, h]

theorem liRowsOf_uid :
    ∀ job uid, processedUid job = some uid →
      ∀ r ∈ liRowsOf job, LineItemRow.job_uid r = uid := by
  intro job uid h r hr
  simp only [liRowsOf, h, lineItemRows, List.mem_map] at hr
  obtain ⟨a, -, rfl⟩ := hr
  rfl

theorem cpRowsOf_none : ∀ job, processedUid job = none → cpRowsOf job = [] := by
  intro job h
  simp [cpRowsOf, h]

theorem cpRowsOf_uid :
    ∀ job uid, processedUid job = some uid →
      ∀ r ∈ cpRowsOf job, ChecklistPartRow.job_uid r = uid := by
  intro job uid h r hr
  simp only [cpRowsOf, h, checklistPartRows, List.mem_map] at hr
  obtain ⟨a, -, rfl⟩ := hr
  rfl

theorem cfRowsOf_none : ∀ job, processedUid job = none → cfRowsOf job = [] := by
  intro job h
  simp [cfRowsOf, h]

theorem cfRowsOf_uid :
    ∀ job uid, processedUid job = some uid →
      ∀ r ∈ cfRowsOf job, CustomFieldRow.job_uid r = uid := by
  intro job uid h r hr
  simp only [cfRowsOf, h, customFieldRows, List.mem_map] at hr
  obtain ⟨a, -, rfl⟩ := hr
  rfl

theorem flRowsOf_none (now : String) :
    ∀ job, processedUid job = none → flRowsOf now job = [] := by
  intro job h
  simp [flRowsOf, h]

theorem flRowsOf_uid (now : String) :
    ∀ job uid, processedUid job = some uid →
      ∀ r ∈ flRowsOf now job, FlagRow.job_uid r = uid := by
  intro job uid h r hr
  simp only [flRowsOf, h, flagRows, List.mem_map] at hr
  obtain ⟨a, -, rfl⟩ := hr
  rfl

theorem flRowsOf_map (now1 now2 : String) :
    ∀ j, (flRowsOf now2 j).map FlagRow.job_uid = (flRowsOf now1 j).map FlagRow.job_uid := by
  intro j
  cases h : processedUid j with
  | none => simp [flRowsOf, h]
  | some u =>
    simp only [flRowsOf, h, flagRows, List.map_map]
    apply List.map_congr_left
    intro f _
    rfl

/-! ### Running the replace-children fold twice -/

theorem childFold_twice_eq {ρ : Type} (uidOf : ρ → String) (rowsOf : Job → List ρ)
    (Hnone : ∀ job, processedUid job = none → rowsOf job = [])
    (Hrow : ∀ job uid, processedUid job = some uid → ∀ r ∈ rowsOf job, uidOf r = uid)
    (jobs : List Job) (tbl : List ρ) :
    childFold uidOf rowsOf (childFold uidOf rowsOf tbl jobs) jobs =
      childFold uidOf rowsOf tbl jobs := by
  rw [childFold_decompose uidOf rowsOf jobs (childFold uidOf rowsOf tbl jobs),
    childFold_decompose uidOf rowsOf jobs tbl, List.filter_append, List.filter_filter]
  have hidem : tbl.filter (fun a =>
      (!((processedUids jobs).contains (uidOf a))) &&
      !((processedUids jobs).contains (uidOf a))) =
      tbl.filter (fun a => !((processedUids jobs).contains (uidOf a))) := by
    apply List.filter_congr
    intro a _
    rw [Bool.and_self]
  have hnil : (childFold uidOf rowsOf [] jobs).filter
      (fun r => !((processedUids jobs).contains (uidOf r))) = [] := by
    rw [List.filter_eq_nil_iff]
    intro r hr
    have hm := childFold_mem_processed uidOf rowsOf Hnone Hrow jobs r hr
    have hc : (processedUids jobs).contains (uidOf r) = true := List.elem_iff.mpr hm
    simp [hc]
    exact hm
  rw [hidem, hnil, List.append_nil]

theorem childFold_twice_length {ρ : Type} (uidOf : ρ → String)
    (rowsOf₁ rowsOf₂ : Job → List ρ)
    (Hnone₁ : ∀ job, processedUid job = none → rowsOf₁ job = [])
    (Hrow₁ : ∀ job uid, processedUid job = some uid → ∀ r ∈ rowsOf₁ job, uidOf r = uid)
    (Hmap : ∀ j, (rowsOf₂ j).map uidOf = (rowsOf₁ j).map uidOf)
    (jobs : List Job) (tbl : List ρ) :
    (childFold uidOf rowsOf₂ (childFold uidOf rowsOf₁ tbl jobs) jobs).length =
      (childFold uidOf rowsOf₁ tbl jobs).length := by
  rw [childFold_decompose uidOf rowsOf₂ jobs (childFold uidOf rowsOf₁ tbl jobs),
    childFold_decompose uidOf rowsOf₁ jobs tbl, List.filter_append, List.filter_filter]
  have hidem : tbl.filter (fun a =>
      (!((processedUids jobs).contains (uidOf a))) &&
      !((processedUids jobs).contains (uidOf a))) =
      tbl.filter (fun a => !((processedUids jobs).contains (uidOf a))) := by
    apply List.filter_congr
    intro a _
    rw [Bool.and_self]
  have hnil : (childFold uidOf rowsOf₁ [] jobs).filter
      (fun r => !((processedUids jobs).contains (uidOf r))) = [] := by
    rw [List.filter_eq_nil_iff]
    intro r hr
    have hm := childFold_mem_processed uidOf rowsOf₁ Hnone₁ Hrow₁ jobs r hr
    have hc : (processedUids jobs).contains (uidOf r) = true := List.elem_iff.mpr hm
    simp [hc]
    exact hm
  rw [hidem, hnil, List.append_nil, List.length_append, List.length_append,
    childFold_length_eq uidOf rowsOf₂ rowsOf₁ Hmap jobs [] [] rfl]

/-! ### Organizations: `INSERT OR IGNORE` reaches a fixed point -/

/-- The organization uid a processed job would insert, when truthy. -/
def orgCandidateUid (job : Job) : Option String :=
  match processedUid job with
  | some _ =>
    match extractOrg job with
    | some o =>
      match o.organization_uid with
      | some ouid => if ouid ≠ "" then some ouid else none
      | none => none
    | none => none
  | none => none

def orgPresent (tbl : List OrgRow) (v : String) : Bool :=
  tbl.any fun r => r.organization_uid == v

theorem orgStep_shape (now : String) (tbl : List OrgRow) (j : Job) :
    orgStep now tbl j = tbl ∨ ∃ row, orgStep now tbl j = tbl ++ [row] := by
  cases hp : processedUid j with
  | none => exact Or.inl (by simp only [orgStep, hp])
  | some u =>
    cases ho : extractOrg j with
    | none => exact Or.inl (by simp only [orgStep, orgUpsert, hp, ho])
    | some o =>
      cases hou : o.organization_uid with
      | none => exact Or.inl (by simp only [orgStep, orgUpsert, hp, ho, hou])
      | some ouid =>
        by_cases hc : ouid ≠ "" ∧ ¬ tbl.any (fun r => r.organization_uid == ouid)
        · refine Or.inr ⟨⟨ouid, o.organization_name, now⟩, ?_⟩
          simp only [orgStep, orgUpsert, hp, ho, hou]
          rw [if_pos hc]
        · refine Or.inl ?_
          simp only [orgStep, orgUpsert, hp, ho, hou]
          rw [if_neg hc]

theorem orgPresent_step {tbl : List OrgRow} {v : String}
    (h : orgPresent tbl v = true) (now : String) (j : Job) :
    orgPresent (orgStep now tbl j) v = true := by
  rcases orgStep_shape now tbl j with he | ⟨row, he⟩
  · rw [he]; exact h
  · rw [he]
    unfold orgPresent at h ⊢
    rw [List.any_append, h]
    rfl

theorem orgPresent_fold (now : String) (jobs : List Job) :
    ∀ (tbl : List OrgRow) (v : String), orgPresent tbl v = true →
      orgPresent (jobs.foldl (orgStep now) tbl) v = true := by
  induction jobs with
  | nil => exact fun tbl v h => h
  | cons j rest ih =>
    intro tbl v h
    exact ih _ v (orgPresent_step h now j)

theorem orgStep_inserts (now : String) (tbl : List OrgRow) (j : Job) (v : String)
    (hc : orgCandidateUid j = some v) : orgPresent (orgStep now tbl j) v = true := by
  cases hp : processedUid j with
  | none =>
    simp only [orgCandidateUid, hp] at hc
    exact Option.noConfusion hc
  | some u =>
    simp only [orgCandidateUid, hp] at hc
    cases ho : extractOrg j with
    | none =>
      simp only [ho] at hc
      exact Option.noConfusion hc
    | some o =>
      simp only [ho] at hc
      cases hou : o.organization_uid with
      | none =>
        simp only [hou] at hc
        exact Option.noConfusion hc
      | some ouid =>
        simp only [hou] at hc
        by_cases hne : ouid ≠ ""
        · rw [if_pos hne] at hc
          obtain rfl : ouid = v := Option.some.inj hc
          simp only [orgStep, orgUpsert, hp, ho, hou]
          by_cases hin : tbl.any (fun r => r.organization_uid == ouid)
          · rw [if_neg (by intro h; exact h.2 hin)]
            exact hin
          · rw [if_pos ⟨hne, hin⟩]
            unfold orgPresent
            rw [List.any_append]
            simp
        · rw [if_neg hne] at hc
          exact Option.noConfusion hc

theorem orgFold_all_present (now : String) (jobs : List Job) :
    ∀ (tbl : List OrgRow) (j : Job), j ∈ jobs → ∀ v, orgCandidateUid j = some v →
      orgPresent (jobs.foldl (orgStep now) tbl) v = true := by
  induction jobs with
  | nil => intro tbl j hj; exact absurd hj (by simp)
  | cons j₀ rest ih =>
    intro tbl j hj v hc
    rcases List.mem_cons.mp hj with h | h
    · subst h
      exact orgPresent_fold now rest _ v (orgStep_inserts now tbl j v hc)
    · exact ih _ j h v hc

theorem orgStep_noop (now : String) (tbl : List OrgRow) (j : Job)
    (h : ∀ v, orgCandidateUid j = some v → orgPresent tbl v = true) :
    orgStep now tbl j = tbl := by
  cases hp : processedUid j with
  | none => simp only [orgStep, hp]
  | some u =>
    cases ho : extractOrg j with
    | none => simp only [orgStep, orgUpsert, hp, ho]
    | some o =>
      cases hou : o.organization_uid with
      | none => simp only [orgStep, orgUpsert, hp, ho, hou]
      | some ouid =>
        simp only [orgStep, orgUpsert, hp, ho, hou]
        by_cases hne : ouid ≠ ""
        · have hcand : orgCandidateUid j = some ouid := by
            simp only [orgCandidateUid, hp, ho, hou]
            rw [if_pos hne]
          have hin := h ouid hcand
          rw [if_neg]
          intro hcond
          exact hcond.2 hin
        · rw [if_neg (fun hcond => hne hcond.1)]

theorem orgFold_noop (now : String) (jobs : List Job) (tbl : List OrgRow)
    (h : ∀ j ∈ jobs, ∀ v, orgCandidateUid j = some v → orgPresent tbl v = true) :
    jobs.foldl (orgStep now) tbl = tbl := by
  induction jobs with
  | nil => rfl
  | cons j rest ih =>
    rw [List.foldl_cons, orgStep_noop now tbl j (h j (List.mem_cons_self _ _)),
      ih fun j' hj' => h j' (List.mem_cons_of_mem _ hj')]

theorem sync_orgs_idem (db : DB) (jobs : List Job) (now1 now2 : String) :
    (sync_jobs_to_database (sync_jobs_to_database db jobs now1) jobs now2).organizations =
      (sync_jobs_to_database db jobs now1).organizations := by
  rw [sync_orgs_table, sync_orgs_table]
  apply orgFold_noop
  intro j hj v hc
  exact orgFold_all_present now1 jobs db.organizations j hj v hc

/-! ### Claims about the sync run -/

theorem sync_jobs_categories_allowed (db : DB) (jobs : List Job) (now : String) :
    ∀ r ∈ (sync_jobs_to_database db jobs now).jobs,
      r.job_category ∈ ALLOWED_JOB_CATEGORIES := by
  intro r hr
  rw [sync_jobs_table] at hr
  rcases childFold_provenance JobRow.job_uid (jobRowsOf now) jobs _ r hr with
    h | ⟨j, hj, hrow⟩
  · exact List.elem_iff.mp (List.mem_filter.mp h).2
  · cases hp : processedUid j with
    | none =>
      rw [jobRowsOf_none now j hp] at hrow
      exact absurd hrow (by simp)
    | some u =>
      simp only [jobRowsOf, hp, List.mem_singleton] at hrow
      subst hrow
      exact (processedUid_spec hp).2.2

theorem sync_jobs_filter_allowed (db : DB) (jobs : List Job) (now : String) :
    (sync_jobs_to_database db jobs now).jobs.filter
      (fun r => ALLOWED_JOB_CATEGORIES.contains r.job_category) =
      (sync_jobs_to_database db jobs now).jobs := by
  rw [List.filter_eq_self]
  intro r hr
  exact List.elem_iff.mpr (sync_jobs_categories_allowed db jobs now r hr)

/-- C1 counterexample: even a sync of zero jobs on an empty store inserts a
`sync_log` row, so the second run changes that table's row count — the
claimed "row counts of all tables unchanged" fails on `sync_log`. -/
theorem claim_C1_counterexample :
    (sync_jobs_to_database
      (sync_jobs_to_database ⟨[], [], [], [], [], [], [], []⟩ [] "t1") []
      "t2").sync_log.length ≠
      (sync_jobs_to_database ⟨[], [], [], [], [], [], [], []⟩ [] "t1").sync_log.length := by
  decide

/-- C1 (amended): running the same full sync twice in immediate succession
duplicates no rows — after the second run the row counts of `jobs`,
`job_line_items`, `job_checklist_parts`, `job_custom_fields`,
`validation_flags`, `organizations` and `notification_log` all equal the
counts after the first run — except that `sync_log` gains exactly one row
per run. -/
theorem claim_C1_resync_row_counts (db : DB) (jobs : List Job) (now1 now2 : String) :
    (sync_jobs_to_database (sync_jobs_to_database db jobs now1) jobs
        now2).jobs.length =
      (sync_jobs_to_database db jobs now1).jobs.length ∧
    (sync_jobs_to_database (sync_jobs_to_database db jobs now1) jobs
        now2).job_line_items.length =
      (sync_jobs_to_database db jobs now1).job_line_items.length ∧
    (sync_jobs_to_database (sync_jobs_to_database db jobs now1) jobs
        now2).job_checklist_parts.length =
      (sync_jobs_to_database db jobs now1).job_checklist_parts.length ∧
    (sync_jobs_to_database (sync_jobs_to_database db jobs now1) jobs
        now2).job_custom_fields.length =
      (sync_jobs_to_database db jobs now1).job_custom_fields.length ∧
    (sync_jobs_to_database (sync_jobs_to_database db jobs now1) jobs
        now2).validation_flags.length =
      (sync_jobs_to_database db jobs now1).validation_flags.length ∧
    (sync_jobs_to_database (sync_jobs_to_database db jobs now1) jobs
        now2).organizations.length =
      (sync_jobs_to_database db jobs now1).organizations.length ∧
    (sync_jobs_to_database (sync_jobs_to_database db jobs now1) jobs
        now2).notification_log.length =
      (sync_jobs_to_database db jobs now1).notification_log.length ∧
    (sync_jobs_to_database (sync_jobs_to_database db jobs now1) jobs
        now2).sync_log.length =
      (sync_jobs_to_database db jobs now1).sync_log.length + 1 := by
  refine ⟨?_, ?_, ?_, ?_, ?_, ?_, ?_, ?_⟩
  · rw [sync_jobs_table (sync_jobs_to_database db jobs now1) jobs now2,
      sync_jobs_filter_allowed db jobs now1, sync_jobs_table db jobs now1]
    exact childFold_twice_length JobRow.job_uid (jobRowsOf now1) (jobRowsOf now2)
      (jobRowsOf_none now1) (jobRowsOf_uid now1) (jobRowsOf_map now1 now2) jobs _
  · rw [sync_line_items_table (sync_jobs_to_database db jobs now1) jobs now2,
      sync_line_items_table db jobs now1,
      childFold_twice_eq LineItemRow.job_uid liRowsOf liRowsOf_none liRowsOf_uid jobs _]
  · rw [sync_checklist_parts_table (sync_jobs_to_database db jobs now1) jobs now2,
      sync_checklist_parts_table db jobs now1,
      childFold_twice_eq ChecklistPartRow.job_uid cpRowsOf cpRowsOf_none cpRowsOf_uid
        jobs _]
  · rw [sync_custom_fields_table (sync_jobs_to_database db jobs now1) jobs now2,
      sync_custom_fields_table db jobs now1,
      childFold_twice_eq CustomFieldRow.job_uid cfRowsOf cfRowsOf_none cfRowsOf_uid
        jobs _]
  · rw [sync_flags_table (sync_jobs_to_database db jobs now1) jobs now2,
      sync_flags_table db jobs now1]
    exact childFold_twice_length FlagRow.job_uid (flRowsOf now1) (flRowsOf now2)
      (flRowsOf_none now1) (flRowsOf_uid now1) (flRowsOf_map now1 now2) jobs _
  · rw [sync_orgs_idem db jobs now1 now2]
  · rw [sync_notification_log (sync_jobs_to_database db jobs now1) jobs now2]
  · exact sync_sync_log_length (sync_jobs_to_database db jobs now1) jobs now2

/-- C7: for every job a sync pass processes (here: the unique job carrying
uid `u`), `sync_jobs_to_database` deletes all of that job's
`validation_flags` rows and inserts exactly the freshly computed flags
(`flagRows` = the `validate_job` output) as new rows with
`is_resolved = false` — so a flag an operator marked resolved does not
survive a resync of the same job. -/
theorem claim_C7_flags_deleted_and_reinserted (db : DB) (jobs : List Job) (now : String)
    (j : Job) (u : String) (hj : j ∈ jobs) (hu : processedUid j = some u)
    (huniq : ∀ j' ∈ jobs, processedUid j' = some u → j' = j) :
    (sync_jobs_to_database db jobs now).validation_flags.filter
      (fun r => r.job_uid == u) = flagRows now u j ∧
    ∀ r ∈ (sync_jobs_to_database db jobs now).validation_flags,
      r.job_uid = u → r.is_resolved = false := by
  have h1 : (sync_jobs_to_database db jobs now).validation_flags.filter
      (fun r => r.job_uid == u) = flagRows now u j := by
    rw [sync_flags_table]
    rw [childFold_filter_unique FlagRow.job_uid (flRowsOf now) (flRowsOf_uid now) u j hu
      jobs db.validation_flags hj huniq]
    simp [flRowsOf, hu]
  refine ⟨h1, ?_⟩
  intro r hr hru
  have hrin : r ∈ (sync_jobs_to_database db jobs now).validation_flags.filter
      (fun r => r.job_uid == u) := List.mem_filter.mpr ⟨hr, by simp [hru]⟩
  rw [h1] at hrin
  simp only [flagRows, List.mem_map] at hrin
  obtain ⟨f, -, rfl⟩ := hrin
  rfl

def widgetItem : LineItem := ⟨"Widget", "", "", 1, "0", ""⟩

def c7job : Job where
  job_uid := some "J1"
  job_category := JobCategoryField.list [⟨"LaserWeeder Service Call"⟩]
  customer := none
  customer_name := ""
  products := [⟨"Widget", "", [], 1, "0", ""⟩]
  job_status := []
  custom_fields := []
  assigned_to := []
  assigned_to_team := []
  assets := []
  work_order_number := ""
  job_number := ""
  job_title := ""
  created_at := ""
  updated_at := ""

def c7db : DB :=
  ⟨[], [], [], [],
    [⟨"J1", "missing_netsuite_id", "error", "old", FlagDetails.missingNetsuite 1
      ["Widget"] 0, true, "t0"⟩], [], [], []⟩

/-- C7 witness: a store holding a *resolved* `missing_netsuite_id` flag for
job `J1`; after resyncing that job the only `J1` flag row is the freshly
inserted unresolved one. -/
theorem claim_C7_flags_deleted_and_reinserted_witness :
    (sync_jobs_to_database c7db [c7job] "t1").validation_flags.filter
      (fun r => r.job_uid == "J1") =
      [⟨"J1", "missing_netsuite_id", "error", missing_netsuite_message 1,
        FlagDetails.missingNetsuite 1 ["Widget"] 0, false, "t1"⟩] := by
  have h := (claim_C7_flags_deleted_and_reinserted c7db [c7job] "t1" c7job "J1"
    (by decide) (by decide) (by decide)).1
  exact h.trans (by decide)

/-- C8: after every run of `sync_jobs_to_database`, every row of the `jobs`
table has a category in the allowlist; a job whose derived category is
outside the allowlist is skipped for insertion and a previously stored row
whose category is not allowed is deleted at the start of the run, so a uid
whose stored and derived categories are all outside the allowlist is absent
after the run. -/
theorem claim_C8_allowlist_invariant (db : DB) (jobs : List Job) (now : String) :
    (∀ r ∈ (sync_jobs_to_database db jobs now).jobs,
      r.job_category ∈ ALLOWED_JOB_CATEGORIES) ∧
    (∀ u : String,
      (∀ r ∈ db.jobs, r.job_uid = u → r.job_category ∉ ALLOWED_JOB_CATEGORIES) →
      (∀ j ∈ jobs, j.job_uid = some u → get_job_category j ∉ ALLOWED_JOB_CATEGORIES) →
      ∀ r ∈ (sync_jobs_to_database db jobs now).jobs, r.job_uid ≠ u) := by
  refine ⟨sync_jobs_categories_allowed db jobs now, ?_⟩
  intro u hdb hjobs r hr hru
  rw [sync_jobs_table] at hr
  rcases childFold_provenance JobRow.job_uid (jobRowsOf now) jobs _ r hr with
    h | ⟨j, hj, hrow⟩
  · have hp := List.mem_filter.mp h
    exact (hdb r hp.1 hru) (List.elem_iff.mp hp.2)
  · cases hp : processedUid j with
    | none =>
      rw [jobRowsOf_none now j hp] at hrow
      exact absurd hrow (by simp)
    | some v =>
      simp only [jobRowsOf, hp, List.mem_singleton] at hrow
      subst hrow
      have hv : v = u := hru
      subst hv
      obtain ⟨hjuid, -, hcat⟩ := processedUid_spec hp
      exact (hjobs j hj hjuid) hcat

/-- C10: inside `sync_jobs_to_database` the category handed to
`validate_job` is recomputed by probing the raw `job_category` as a dict;
when the field is a list (the shape `get_job_category` and the allowlist
check use), `category_for_validation` yields `""`, no skip term matches the
empty string, and `validate_job` runs both rules un-skipped. -/
theorem claim_C10_list_category_never_skips (job : Job) (cats : List CategoryEntry)
    (h : job.job_category = JobCategoryField.list cats) (uid : String)
    (li : List LineItem) (cp : List ChecklistPart) (ns : Option String) :
    category_for_validation job = "" ∧
    skip_validation_match "" = false ∧
    validate_job uid li cp ns (category_for_validation job) = rule_flags li cp ns := by
  have h1 : category_for_validation job = "" := by
    simp [category_for_validation, h]
  have h2 : skip_validation_match "" = false := by decide
  refine ⟨h1, h2, ?_⟩
  rw [h1]
  unfold validate_job
  simp [h2]

/-- C10 witness: a job whose raw `job_category` is a list containing an
allowed category; validation sees `""` and the rules fire un-skipped. -/
theorem claim_C10_list_category_never_skips_witness :
    category_for_validation c7job = "" ∧
    skip_validation_match "" = false ∧
    validate_job "J1" [widgetItem] [] none (category_for_validation c7job) =
      rule_flags [widgetItem] [] none :=
  claim_C10_list_category_never_skips c7job [⟨"LaserWeeder Service Call"⟩] rfl "J1"
    [widgetItem] [] none

end Zuper
